import Mathlib

/-!
OPHD colony economy: population pool, ore refining, mine facility, component table and
tube placement.

A shallow embedding of `OPHD/PopulationPool.cpp`, `OPHD/Things/Structures/OreRefining.h`,
`OPHD/Things/Structures/Smelter.h`, `OPHD/Things/Structures/MineFacility.cpp`, the
component table of `OPHD/StructureManager.h` and the tube placement of
`OPHD/States/MapViewState.cpp`, with the properties of the specification proved about it.

Conventions of the embedding.

* A C++ `int` is a Lean `Int`. Signed overflow is undefined behaviour in C++, so the
  source has a defined result exactly where no intermediate value leaves the machine
  range, and there it is the result computed here. For the population pool the
  arithmetic of the compiled code on a 32-bit `int` is defined as well
  (`usePopulation32` and its companions, with every result reduced modulo 2^32), and the
  theorems whose conclusion depends on the range say so in a hypothesis (`noOverflow`).
* A member function that mutates its object takes the object and returns the new object
  next to its result. A function that can throw returns an `Except`, and the object is
  returned on both paths, as a C++ object survives an exception thrown by its member.
* C++ integer division truncates towards zero: `Int.tdiv`.
-/

namespace OPHD

/-! ## Population pool (`OPHD/PopulationPool.cpp`) -/

/-- Modelled from the spec: the declaration of `PopulationTable::Role` is not in the
sources. Its enumerators are the five roles `PopulationPool.cpp` names, which are the
roles the specification lists for a Population. -/
inductive Role where
  | Child
  | Student
  | Worker
  | Scientist
  | Retired
  deriving DecidableEq, Repr

/-- Modelled from the spec: the class `Population` is not in the sources. The pool only
reads `size(role)`, the headcount of a role. -/
structure Population where
  size : Role → Int

/-- The exceptions the embedded code throws: `std::runtime_error` with its message. -/
inductive Exception where
  | runtime_error (what : String)
  deriving DecidableEq, Repr

deriving instance DecidableEq for Except

/-- The data members of `PopulationPool` that `PopulationPool.cpp` reads and writes.
`mPopulation` is the object behind the pointer set by `population(Population*)`. -/
structure PopulationPool where
  mPopulation : Population
  mScientistsAsWorkers : Int
  mScientistsUsed : Int
  mWorkersUsed : Int

/-- The `switch` of `BasicCheck` that names the offending role. -/
def roleTypeName (role : Role) : String :=
  match role with
  | Role.Child => "PopulationTable::Role::Child"
  | Role.Student => "PopulationTable::Role::Student"
  | Role.Retired => "PopulationTable::Role::Retired"
  | _ => ""

/-- The exception `BasicCheck` throws for `role`. -/
def invalidRoleError (role : Role) : Exception :=
  Exception.runtime_error
    ("PopulationPool::BasicCheck(): Invalid population role specified (" ++ roleTypeName role ++ ").")

/-- Function `BasicCheck(role)`: throws for Child, Student and Retired, returns otherwise. -/
def BasicCheck (role : Role) : Except Exception Unit :=
  if role = Role.Child ∨ role = Role.Student ∨ role = Role.Retired then
    Except.error (invalidRoleError role)
  else
    Except.ok ()

namespace PopulationPool

/-- Function `PopulationPool::scientistsAsWorkers()`. -/
def scientistsAsWorkers (p : PopulationPool) : Int := p.mScientistsAsWorkers

/-- Function `PopulationPool::scientistsEmployed()`. -/
def scientistsEmployed (p : PopulationPool) : Int := p.mScientistsUsed

/-- Function `PopulationPool::workersEmployed()`. -/
def workersEmployed (p : PopulationPool) : Int := p.mWorkersUsed

/-- Function `PopulationPool::populationEmployed()`. -/
def populationEmployed (p : PopulationPool) : Int :=
  p.scientistsEmployed + p.scientistsAsWorkers + p.workersEmployed

/-- Function `PopulationPool::populationAvailable(role)`: the result (or the exception) and the
pool after the call. -/
def populationAvailable (p : PopulationPool) (role : Role) :
    Except Exception Int × PopulationPool :=
  match BasicCheck role with
  | Except.error e => (Except.error e, p)
  | Except.ok _ =>
    let employed := if role = Role.Scientist then p.scientistsEmployed else p.workersEmployed
    (Except.ok (p.mPopulation.size role - employed), p)

/-- Function `PopulationPool::enoughPopulationAvailable(role, amount)`. -/
def enoughPopulationAvailable (p : PopulationPool) (role : Role) (amount : Int) :
    Except Exception Bool × PopulationPool :=
  match BasicCheck role with
  | Except.error e => (Except.error e, p)
  | Except.ok _ =>
    match p.populationAvailable role with
    | (Except.error e, p1) => (Except.error e, p1)
    | (Except.ok available, p1) => (Except.ok (decide (available ≥ amount)), p1)

/-- Function `PopulationPool::usePopulation(role, amount)`, with the arithmetic of the source
on mathematical integers. It is what the compiled code computes whenever no result leaves
the range of `int` (`usePopulation32_worker_eq`, `usePopulation32_scientist_eq`); the
compiled arithmetic itself is `usePopulation32`. -/
def usePopulation (p : PopulationPool) (role : Role) (amount : Int) :
    Except Exception Bool × PopulationPool :=
  match BasicCheck role with
  | Except.error e => (Except.error e, p)
  | Except.ok _ =>
    let scientistsAvailable :=
      p.mPopulation.size Role.Scientist - (p.mScientistsAsWorkers + p.mScientistsUsed)
    let workersAvailable := p.mPopulation.size Role.Worker - p.mWorkersUsed
    if role = Role.Scientist then
      if amount ≤ scientistsAvailable then
        (Except.ok true, { p with mScientistsUsed := p.mScientistsUsed + amount })
      else
        (Except.ok false, p)
    else if role = Role.Worker then
      if amount ≤ workersAvailable + scientistsAvailable then
        if amount ≤ workersAvailable then
          (Except.ok true, { p with mWorkersUsed := p.mWorkersUsed + amount })
        else
          let remainder := amount - workersAvailable
          (Except.ok true,
            { p with
              mWorkersUsed := p.mWorkersUsed + (amount - remainder)
              mScientistsAsWorkers := p.mScientistsAsWorkers + remainder })
      else
        (Except.ok false, p)
    else
      (Except.ok false, p)

/-- Function `PopulationPool::clear()`. -/
def clear (p : PopulationPool) : PopulationPool :=
  { p with mScientistsAsWorkers := 0, mScientistsUsed := 0, mWorkersUsed := 0 }

/-- The pool invariant of the specification: the scientists committed (as scientists or
as substitute workers) and the workers committed do not exceed the headcount. -/
def Invariant (p : PopulationPool) : Prop :=
  p.mScientistsUsed + p.mScientistsAsWorkers ≤ p.mPopulation.size Role.Scientist ∧
    p.mWorkersUsed ≤ p.mPopulation.size Role.Worker

instance (p : PopulationPool) : Decidable p.Invariant := by
  unfold Invariant; infer_instance

end PopulationPool

/-- A population given by its five headcounts. -/
def Population.ofCounts (child student worker scientist retired : Int) : Population :=
  ⟨fun r =>
    match r with
    | Role.Child => child
    | Role.Student => student
    | Role.Worker => worker
    | Role.Scientist => scientist
    | Role.Retired => retired⟩

/-- A small colony: 2 children, 3 students, 10 workers, 5 scientists, 1 retired. -/
def samplePopulation : Population := Population.ofCounts 2 3 10 5 1

/-- A pool over `samplePopulation` in mid turn: 1 scientist as worker, 2 scientists and
7 workers employed. -/
def samplePool : PopulationPool := ⟨samplePopulation, 1, 2, 7⟩

/-! ## Resource ledger and structure state

`StorableResources.h` and `Structure.h` are not among the sources; what the refining code
uses of them is modelled from the specification. -/

/-- Modelled from the spec: the resource ledger `StorableResources` is not in the sources.
It holds four material counters, `resources[0]` to `resources[3]`. -/
structure StorableResources where
  resources : Fin 4 → Int

namespace StorableResources

instance : DecidableEq StorableResources := fun a b =>
  decidable_of_iff
    (a.resources 0 = b.resources 0 ∧ a.resources 1 = b.resources 1 ∧
      a.resources 2 = b.resources 2 ∧ a.resources 3 = b.resources 3)
    (by
      constructor
      · rintro ⟨h0, h1, h2, h3⟩
        cases a with
        | mk f =>
          cases b with
          | mk g =>
            congr
            funext i
            fin_cases i
            · exact h0
            · exact h1
            · exact h2
            · exact h3
      · rintro rfl
        exact ⟨rfl, rfl, rfl, rfl⟩)

/-- The ledger whose four counters are zero: `StorableResources{ 0 }`, and the value of a
default-constructed ledger. -/
def zero : StorableResources := ⟨fun _ => 0⟩

/-- The ledger with the four given counters. -/
def ofCounts (a b c d : Int) : StorableResources :=
  ⟨fun i => match i with
    | 0 => a
    | 1 => b
    | 2 => c
    | 3 => d⟩

/-- Assignment `ledger.resources[i] = v`. -/
def set (a : StorableResources) (i : Fin 4) (v : Int) : StorableResources :=
  ⟨Function.update a.resources i v⟩

/-- Modelled from the spec: `operator+` of the missing `StorableResources`, the
component-wise addition. -/
def add (a b : StorableResources) : StorableResources :=
  ⟨fun i => a.resources i + b.resources i⟩

/-- Modelled from the spec: `operator-` of the missing `StorableResources`, the
component-wise subtraction. -/
def sub (a b : StorableResources) : StorableResources :=
  ⟨fun i => a.resources i - b.resources i⟩

/-- Modelled from the spec: `cap(limit)` of the missing `StorableResources`, the ledger
truncated to at most `limit` per component. -/
def cap (a : StorableResources) (limit : Int) : StorableResources :=
  ⟨fun i => min (a.resources i) limit⟩

/-- Modelled from the spec: `operator<` of the missing `StorableResources`; the ordering
comparisons are component-wise over all four materials. -/
def lt (a b : StorableResources) : Bool :=
  decide (∀ i : Fin 4, a.resources i < b.resources i)

/-- Modelled from the spec: `operator>` of the missing `StorableResources`, the
component-wise comparison with the operands exchanged. -/
def gt (a b : StorableResources) : Bool := lt b a

end StorableResources

/-- Modelled from the spec: the lifecycle states of a structure (`Structure.h` is not in
the sources). -/
inductive StructureState where
  | UnderConstruction
  | Operational
  | Idle
  | Disabled
  | Destroyed
  deriving DecidableEq, Repr

/-- Modelled from the spec: the idle reasons the sources name (`IdleReason` is declared in
a file that is not in the sources). `InternalStorageFull` is spelled
`IDLE_INTERNAL_STORAGE_FULL` in `Smelter.h`. -/
inductive IdleReason where
  | None
  | InternalStorageFull
  | MineExhausted
  | MineInactive
  deriving DecidableEq, Repr

/-- Modelled from the spec: the part of the base class `Structure` the refining code
touches (`Structure.h` is not in the sources): the lifecycle state, the idle reason, the
two ledgers `production()` and `storage()`, and the value of the virtual
`storageCapacity()`. -/
structure Structure where
  mStructureState : StructureState
  mIdleReason : IdleReason
  production : StorableResources
  storage : StorableResources
  storageCapacity : Int
  deriving DecidableEq

namespace Structure

/-- Modelled from the spec: `Structure::idle(reason)` is not in the sources. The structure
enters `Idle` with the recorded reason. -/
def idle (s : Structure) (reason : IdleReason) : Structure :=
  { s with mStructureState := StructureState.Idle, mIdleReason := reason }

/-- Modelled from the spec: `Structure::isIdle()`. -/
def isIdle (s : Structure) : Bool := decide (s.mStructureState = StructureState.Idle)

/-- Modelled from the spec: `Structure::operational()`. -/
def operational (s : Structure) : Bool :=
  decide (s.mStructureState = StructureState.Operational)

end Structure

/-! ## Ore refining (`OreRefining.h`, `Smelter.h`) -/

/-- One pass of the conversion loop of `updateProduction` at index `i`, on the pair
(`converted`, `ore`). -/
def convertStep (minimum : Int) (divisor : Fin 4 → Int)
    (acc : StorableResources × StorableResources) (i : Fin 4) :
    StorableResources × StorableResources :=
  if acc.2.resources i ≥ minimum then
    (acc.1.set i (Int.tdiv minimum (divisor i)), acc.2.set i (acc.2.resources i - minimum))
  else
    acc

/-- The conversion loop `for (size_t i = 0; i < ore.resources.size(); ++i)` shared by
`OreRefining::updateProduction` and `Smelter::updateProduction`: it starts from a zero
`converted` ledger and returns (`converted`, `ore`). -/
def convertLoop (minimum : Int) (divisor : Fin 4 → Int) (ore : StorableResources) :
    StorableResources × StorableResources :=
  ([0, 1, 2, 3] : List (Fin 4)).foldl (convertStep minimum divisor) (StorableResources.zero, ore)

namespace OreRefining

/-- The member `std::array<int, 4> OreConversionDivisor{ 2, 2, 3, 3 }`. -/
def OreConversionDivisor : Fin 4 → Int := ![2, 2, 3, 3]

/-- Function `OreRefining::IndividualMaterialCapacity()`. -/
def IndividualMaterialCapacity (s : Structure) : Int := Int.tdiv s.storageCapacity 4

/-- The local `converted` of `OreRefining::updateProduction` after its loop.
`processingMinimum` is the constant `constants::MINIMUM_RESOURCES_REQUIRE_FOR_SMELTING`,
whose definition is not in the sources. -/
def converted (processingMinimum : Int) (s : Structure) : StorableResources :=
  (convertLoop processingMinimum OreConversionDivisor s.production).1

/-- The local `overflow` of `OreRefining::updateProduction`. -/
def overflow (processingMinimum : Int) (s : Structure) : StorableResources :=
  let total := s.storage.add (converted processingMinimum s)
  total.sub (total.cap (IndividualMaterialCapacity s))

/-- Function `OreRefining::updateProduction()`. -/
def updateProduction (processingMinimum : Int) (s : Structure) : Structure :=
  let loop := convertLoop processingMinimum OreConversionDivisor s.production
  let converted := loop.1
  let ore := loop.2
  let total := s.storage.add converted
  let capped := total.cap (IndividualMaterialCapacity s)
  let overflow := total.sub capped
  let s1 := { s with production := ore, storage := s.storage.add capped }
  if overflow.gt StorableResources.zero then
    Structure.idle { s1 with production := ore.add overflow } IdleReason.InternalStorageFull
  else
    s1

end OreRefining

namespace Smelter

/-- The member `const int StorageCapacity = 800`. -/
def StorageCapacity : Int := 800

/-- The member `std::array<int, 4> OreConversionDivisor{ 2, 2, 3, 3 }`. -/
def OreConversionDivisor : Fin 4 → Int := ![2, 2, 3, 3]

/-- The local `converted` of `Smelter::updateProduction` after its loop. `resource_units`
is the constant `constants::MINIMUM_RESOURCES_REQUIRE_FOR_SMELTING`. -/
def converted (resource_units : Int) (s : Structure) : StorableResources :=
  (convertLoop resource_units OreConversionDivisor s.production).1

/-- Function `Smelter::updateProduction()`. The function never assigns `storage()`. -/
def updateProduction (resource_units : Int) (s : Structure) : Structure :=
  let loop := convertLoop resource_units OreConversionDivisor s.production
  let converted := loop.1
  let ore := loop.2
  let total := s.storage.add converted
  let capped := total.cap (Int.tdiv StorageCapacity 4)
  let overflow := total.sub capped
  let s1 := { s with production := ore }
  if overflow.gt StorableResources.zero then
    Structure.idle { s1 with production := ore.add overflow } IdleReason.InternalStorageFull
  else
    s1

end Smelter

/-- An operational refinery of capacity 800 with the given ore buffer and storage. -/
def refinery (production storage : StorableResources) : Structure :=
  ⟨StructureState.Operational, IdleReason.None, production, storage, 800⟩

/-- An operational refinery whose four storage counters are above the quarter capacity
of 200, with one minimum batch (20) of material 0 in its ore buffer. -/
def overfullRefinery : Structure :=
  refinery (StorableResources.ofCounts 20 0 0 0) (StorableResources.ofCounts 300 300 300 300)

/-- An operational refinery with room in storage and one minimum batch (20) of material 0
in its ore buffer, less than a batch of the other materials. -/
def roomyRefinery : Structure :=
  refinery (StorableResources.ofCounts 20 3 0 19) (StorableResources.ofCounts 40 10 0 5)

/-- An operational refinery five units below the quarter capacity in every material, with
a minimum batch of every material in its ore buffer. -/
def nearlyFullRefinery : Structure :=
  refinery (StorableResources.ofCounts 20 20 20 20) (StorableResources.ofCounts 195 195 195 195)

/-- An operational refinery five units below the quarter capacity in material 0 and empty
in the others, with a minimum batch of material 0 in its ore buffer. -/
def oneMaterialFullRefinery : Structure :=
  refinery (StorableResources.ofCounts 20 0 0 0) (StorableResources.ofCounts 195 0 0 0)

/-! ## Re-enabling of a refining structure (`think()` of `OreRefining.h`, `Smelter.h`) -/

namespace StorableResources

/-- Modelled from the spec: the brace initialisation `StorableResources{ n }` with one
value, which the refining and mining code uses as the threshold a ledger is compared
with. The specification reads it as the threshold `n` of each material. -/
def ofLimit (n : Int) : StorableResources := ⟨fun _ => n⟩

/-- Modelled from the spec: `operator>=` of the missing `StorableResources`, the
component-wise comparison over all four materials. -/
def ge (a b : StorableResources) : Bool :=
  decide (∀ i : Fin 4, a.resources i ≥ b.resources i)

end StorableResources

/-- Modelled from the spec: `Structure::enable()` is not in the sources. The structure
returns to `Operational`. -/
def Structure.enable (s : Structure) : Structure :=
  { s with mStructureState := StructureState.Operational }

/-- Function `OreRefining::think()`. -/
def OreRefining.think (processingMinimum : Int) (s : Structure) : Structure :=
  let s1 :=
    if s.isIdle then
      if s.storage.lt (StorableResources.ofLimit (OreRefining.IndividualMaterialCapacity s)) then
        s.enable
      else s
    else s
  if s1.operational then OreRefining.updateProduction processingMinimum s1 else s1

/-- Function `Smelter::think()`. -/
def Smelter.think (resource_units : Int) (s : Structure) : Structure :=
  let s1 :=
    if s.isIdle then
      if s.storage.lt (StorableResources.ofLimit (Int.tdiv Smelter.StorageCapacity 4)) then
        s.enable
      else s
    else s
  if s1.operational then Smelter.updateProduction resource_units s1 else s1

/-- The material rows of the table built by `OreRefining::createInspectorViewTable`: the
label of the row, and the ledger index whose storage amount and `OreConversionDivisor`
entry the row shows. -/
def OreRefining.inspectorRows : List (String × Fin 4) :=
  [("Common Metal", 0), ("Rare Metal", 2), ("Common Minerals", 1), ("Rare Minerals", 3)]

/-- An idle refinery of capacity 800 with the given ore buffer and storage, idle because
its internal storage was full. -/
def idleRefinery (production storage : StorableResources) : Structure :=
  ⟨StructureState.Idle, IdleReason.InternalStorageFull, production, storage, 800⟩

/-- An operational refinery that stores 150 of each material and has no ore. -/
def halfFullRefinery : Structure :=
  refinery StorableResources.zero (StorableResources.ofCounts 150 150 150 150)

/-- An operational Smelter with an empty storage and one minimum batch (20) of material 0
in its ore buffer. -/
def freshSmelter : Structure :=
  refinery (StorableResources.ofCounts 20 0 0 0) StorableResources.zero

/-! ## Mine facility (`OPHD/Things/Structures/MineFacility.cpp`)

`Mine.h`, the ledger type behind `production()` in this file and the current
`MineFacility.h` are not among the sources; what `MineFacility.cpp` uses of them is
modelled from the specification. -/

/-- The enumerators of `Mine::OreType` that `MineFacility::think` names. -/
inductive OreType where
  | ORE_COMMON_METALS
  | ORE_COMMON_MINERALS
  | ORE_RARE_METALS
  | ORE_RARE_MINERALS
  deriving DecidableEq, Repr

/-- Modelled from the spec: the class `Mine` is not in the sources. A mine has a current
depth, an active flag, an exhausted flag, and says for each ore type whether it is being
mined; the last four fields are what is left of each ore type. -/
structure Mine where
  depth : Int
  active : Bool
  exhausted : Bool
  miningCommonMetals : Bool
  miningCommonMinerals : Bool
  miningRareMetals : Bool
  miningRareMinerals : Bool
  commonMetalsLeft : Int
  commonMineralsLeft : Int
  rareMetalsLeft : Int
  rareMineralsLeft : Int
  deriving DecidableEq

namespace Mine

/-- Modelled from the spec: `Mine::increaseDepth()` is not in the sources. It increases
the depth of the mine by one level. -/
def increaseDepth (m : Mine) : Mine := { m with depth := m.depth + 1 }

/-- What is left of an ore type. -/
def left (m : Mine) (ore : OreType) : Int :=
  match ore with
  | OreType.ORE_COMMON_METALS => m.commonMetalsLeft
  | OreType.ORE_COMMON_MINERALS => m.commonMineralsLeft
  | OreType.ORE_RARE_METALS => m.rareMetalsLeft
  | OreType.ORE_RARE_MINERALS => m.rareMineralsLeft

/-- Modelled from the spec: `Mine::pull(type, quantity)` is not in the sources, and
`MineFacility.think` below takes it as a parameter. This instance hands out up to
`quantity` of what is left of the ore type and returns the amount handed out. -/
def pullAvailable (m : Mine) (ore : OreType) (quantity : Int) : Int × Mine :=
  let pulled := min quantity (m.left ore)
  match ore with
  | OreType.ORE_COMMON_METALS => (pulled, { m with commonMetalsLeft := m.commonMetalsLeft - pulled })
  | OreType.ORE_COMMON_MINERALS =>
    (pulled, { m with commonMineralsLeft := m.commonMineralsLeft - pulled })
  | OreType.ORE_RARE_METALS => (pulled, { m with rareMetalsLeft := m.rareMetalsLeft - pulled })
  | OreType.ORE_RARE_MINERALS =>
    (pulled, { m with rareMineralsLeft := m.rareMineralsLeft - pulled })

end Mine

/-- The enumerators of `ResourcePool::ResourceType` that `MineFacility::think` names. -/
inductive ResourceType where
  | CommonMetalsOre
  | CommonMineralsOre
  | RareMetalsOre
  | RareMineralsOre
  deriving DecidableEq, Repr

/-- Modelled from the spec: the ledger behind `production()` in `MineFacility.cpp` is not
in the sources. It holds the four ore counters the file reads and a capacity. -/
structure ResourcePool where
  commonMetalsOre : Int
  commonMineralsOre : Int
  rareMetalsOre : Int
  rareMineralsOre : Int
  capacity : Int
  deriving DecidableEq

namespace ResourcePool

/-- Modelled from the spec: `remainingCapacity()` of the missing ledger, the capacity that
the four counters leave free. -/
def remainingCapacity (p : ResourcePool) : Int :=
  p.capacity - (p.commonMetalsOre + p.commonMineralsOre + p.rareMetalsOre + p.rareMineralsOre)

/-- Modelled from the spec: `pushResource(type, amount, false)` of the missing ledger; the
amount is pushed into the counter of the resource type. -/
def pushResource (p : ResourcePool) (type : ResourceType) (amount : Int) : ResourcePool :=
  match type with
  | ResourceType.CommonMetalsOre => { p with commonMetalsOre := p.commonMetalsOre + amount }
  | ResourceType.CommonMineralsOre => { p with commonMineralsOre := p.commonMineralsOre + amount }
  | ResourceType.RareMetalsOre => { p with rareMetalsOre := p.rareMetalsOre + amount }
  | ResourceType.RareMineralsOre => { p with rareMineralsOre := p.rareMineralsOre + amount }

end ResourcePool

/-- The constant `MineFacilityStorageCapacity` of `MineFacility.cpp`. -/
def MineFacilityStorageCapacity : Int := 500

/-- The state of a `MineFacility`: the members `mMine` (the object behind the pointer),
`mDigTurnsRemaining` and `mMaxDepth` that `MineFacility.cpp` uses, and, modelled from the
spec, the part of the base class `Structure` the file touches: the lifecycle state, the
idle reason, the force-idle flag and the two ledgers. -/
structure MineFacility where
  mStructureState : StructureState
  mIdleReason : IdleReason
  forceIdle : Bool
  production : ResourcePool
  storage : StorableResources
  mMine : Mine
  mDigTurnsRemaining : Int
  mMaxDepth : Int
  deriving DecidableEq

namespace MineFacility

/-- Modelled from the spec: `Structure::idle(reason)`, on a mine facility. -/
def idle (f : MineFacility) (reason : IdleReason) : MineFacility :=
  { f with mStructureState := StructureState.Idle, mIdleReason := reason }

/-- Modelled from the spec: `Structure::enable()`, on a mine facility. -/
def enable (f : MineFacility) : MineFacility :=
  { f with mStructureState := StructureState.Operational }

/-- Modelled from the spec: `Structure::isIdle()`, on a mine facility. -/
def isIdle (f : MineFacility) : Bool := decide (f.mStructureState = StructureState.Idle)

/-- The static function `push_count` of `MineFacility.cpp`. `rate` is the constant
`constants::BASE_MINE_PRODUCTION_RATE`, whose definition is not in the sources. -/
def push_count (rate : Int) (f : MineFacility) : Int :=
  if f.production.remainingCapacity ≥ rate then rate else f.production.remainingCapacity

/-- One statement `production().pushResource(resource, mMine->pull(ore, push_count(this)),
false)` of `MineFacility::think`. The second component collects the requests made to
`Mine::pull`, in order. -/
def pullOre (rate : Int) (pull : Mine → OreType → Int → Int × Mine)
    (resource : ResourceType) (ore : OreType)
    (acc : MineFacility × List (OreType × Int)) : MineFacility × List (OreType × Int) :=
  let quantity := push_count rate acc.1
  let pulled := pull acc.1.mMine ore quantity
  ({ acc.1 with
      mMine := pulled.2
      production := acc.1.production.pushResource resource pulled.1 },
    acc.2 ++ [(ore, quantity)])

/-- The four pull statements of `MineFacility::think`, in the order of the source: common
metals, common minerals, rare metals, rare minerals. Each is guarded by the `mining...()`
flag of the mine as it is at that point. -/
def pullOres (rate : Int) (pull : Mine → OreType → Int → Int × Mine) (f : MineFacility) :
    MineFacility × List (OreType × Int) :=
  let a0 : MineFacility × List (OreType × Int) := (f, [])
  let a1 :=
    if a0.1.mMine.miningCommonMetals then
      pullOre rate pull ResourceType.CommonMetalsOre OreType.ORE_COMMON_METALS a0
    else a0
  let a2 :=
    if a1.1.mMine.miningCommonMinerals then
      pullOre rate pull ResourceType.CommonMineralsOre OreType.ORE_COMMON_MINERALS a1
    else a1
  let a3 :=
    if a2.1.mMine.miningRareMetals then
      pullOre rate pull ResourceType.RareMetalsOre OreType.ORE_RARE_METALS a2
    else a2
  if a3.1.mMine.miningRareMinerals then
    pullOre rate pull ResourceType.RareMineralsOre OreType.ORE_RARE_MINERALS a3
  else a3

/-- The first block of the production part of `MineFacility::think`: an idle facility on
an active mine is enabled when its storage is below the threshold ledger. -/
def reenable (f : MineFacility) : MineFacility :=
  if f.isIdle && f.mMine.active then
    if f.storage.lt (StorableResources.ofLimit (Int.tdiv MineFacilityStorageCapacity 4)) then
      f.enable
    else f
  else f

/-- Function `MineFacility::think()`. It returns the facility after the call and the list
of the requests (ore type, quantity) the call made to `Mine::pull`. The signal
`mExtensionComplete(this)` notifies listeners outside the facility and is not modelled.
The statement `storage() + prod_;` computes a sum and discards it. -/
def think (rate : Int) (pull : Mine → OreType → Int → Int × Mine) (f : MineFacility) :
    MineFacility × List (OreType × Int) :=
  if f.forceIdle then (f, [])
  else if f.mDigTurnsRemaining > 0 then
    let f1 := { f with mDigTurnsRemaining := f.mDigTurnsRemaining - 1 }
    if f1.mDigTurnsRemaining = 0 then
      ({ f1 with mMine := f1.mMine.increaseDepth }, [])
    else
      (f1, [])
  else
    let f1 := reenable f
    if f1.mMine.exhausted then
      (f1.idle IdleReason.MineExhausted, [])
    else if f1.mMine.active then
      if f1.storage.ge (StorableResources.ofLimit (Int.tdiv MineFacilityStorageCapacity 4)) then
        (f1.idle IdleReason.MineExhausted, [])
      else
        let pulled := pullOres rate pull f1
        let prod_ := StorableResources.ofCounts pulled.1.production.commonMetalsOre
          pulled.1.production.commonMineralsOre pulled.1.production.rareMetalsOre
          pulled.1.production.rareMineralsOre
        let _discarded := pulled.1.storage.add prod_
        pulled
    else if !f1.isIdle then
      (f1.idle IdleReason.MineInactive, [])
    else
      (f1, [])

/-- Function `MineFacility::canExtend()`. -/
def canExtend (f : MineFacility) : Bool :=
  decide (f.mMine.depth < f.mMaxDepth) && decide (f.mDigTurnsRemaining = 0)

/-- Function `MineFacility::extend()`. `extensionTime` is the constant
`constants::BASE_MINE_SHAFT_EXTENSION_TIME`, whose definition is not in the sources. -/
def extend (extensionTime : Int) (f : MineFacility) : MineFacility :=
  if !f.canExtend then f else { f with mDigTurnsRemaining := extensionTime }

/-- Function `MineFacility::extending()`. -/
def extending (f : MineFacility) : Bool := decide (f.mDigTurnsRemaining > 0)

/-- Function `MineFacility::digTimeRemaining()`. -/
def digTimeRemaining (f : MineFacility) : Int := f.mDigTurnsRemaining

/-- The facility after `n` successive calls of `think()`. -/
def thinkTimes (rate : Int) (pull : Mine → OreType → Int → Int × Mine) :
    Nat → MineFacility → MineFacility
  | 0, f => f
  | n + 1, f => (think rate pull (thinkTimes rate pull n f)).1

end MineFacility

/-- An active mine at depth 1 that yields all four ore types and has 1000 of each left. -/
def sampleMine : Mine := ⟨1, true, false, true, true, true, true, 1000, 1000, 1000, 1000⟩

/-- An operational mine facility on `sampleMine` with empty ledgers (production capacity
500, as the constructor sets it), not force-idle, no dig extension under way, maximum
depth 4. -/
def sampleFacility : MineFacility :=
  ⟨StructureState.Operational, IdleReason.None, false, ⟨0, 0, 0, 0, 500⟩,
    StorableResources.zero, sampleMine, 0, 4⟩

/-! ## Component table of the structure manager (`OPHD/StructureManager.h`) -/

/-- The type `ComponentTypeID` (`typedef int`): the value of `ComponentTy::componentTypeID`
stands for the component type `ComponentTy` of the templates. -/
abbrev ComponentTypeID := Int

/-- The class `SKey`: a structure key wraps the `Structure*` of the structure, here its
address. -/
structure SKey where
  mStructure : Nat
  deriving DecidableEq, Repr

/-- A `StructureComponent` instance, identified by its address. A pointer
`StructureComponent*` is an `Option StructureComponent`, `none` being `nullptr`. -/
structure StructureComponent where
  address : Nat
  deriving DecidableEq, Repr

/-- What a call that returns a reference can do: return the object, throw, or have no
defined behaviour (a null pointer is dereferenced). -/
inductive Outcome (α : Type) where
  | returned (value : α)
  | thrown (e : Exception)
  | undefinedBehaviour
  deriving DecidableEq, Repr

/-- The member `mComponents` of `StructureManager`, a
`std::map<ComponentTypeID, std::map<SKey, StructureComponent*>>`, as the partial function
it represents: `mComponents id s` is `none` when the sub-table of `id` has no entry for
`s`, and `some p` when it maps `s` to the pointer `p`. A missing sub-table and an empty
one answer every lookup alike, so the empty sub-table that `mComponents[id]` creates is
not told apart from a missing one. -/
structure StructureManager where
  mComponents : ComponentTypeID → SKey → Option (Option StructureComponent)

namespace StructureManager

/-- Function `StructureManager::tryGet<ComponentTy>(s)` of the primary template, with
`id = ComponentTy::componentTypeID`. -/
def tryGet (m : StructureManager) (id : ComponentTypeID) (s : SKey) :
    Option StructureComponent :=
  match m.mComponents id s with
  | some p => p
  | none => none

/-- Function `StructureManager::attachComponent<ComponentTy>(s, component)`, with
`id = ComponentTy::componentTypeID`. `debug` says whether `_DEBUG` is defined in the
build. `std::map::insert` leaves an existing entry as it is. -/
def attachComponent (debug : Bool) (m : StructureManager) (id : ComponentTypeID) (s : SKey)
    (component : Option StructureComponent) : Except Exception Unit × StructureManager :=
  let inserted : Bool × StructureManager :=
    match m.mComponents id s with
    | some _ => (false, m)
    | none =>
      (true, ⟨Function.update m.mComponents id (Function.update (m.mComponents id) s (some component))⟩)
  if debug && !inserted.1 then
    (Except.error (Exception.runtime_error
      "Structure::Attach() was called on a Structure that already had the component!"),
      inserted.2)
  else
    (Except.ok (), inserted.2)

/-- Function `StructureManager::get<ComponentTy>(s)` of the primary template, with
`id = ComponentTy::componentTypeID`. `debug` says whether `_DEBUG` is defined in the
build; `return *component` dereferences the pointer. -/
def get (debug : Bool) (m : StructureManager) (id : ComponentTypeID) (s : SKey) :
    Outcome StructureComponent :=
  let component := m.tryGet id s
  if debug && component.isNone then
    Outcome.thrown (Exception.runtime_error
      "StructureManager::get() was called on a Structure without the requested component!")
  else
    match component with
    | some c => Outcome.returned c
    | none => Outcome.undefinedBehaviour

/-- A structure manager without components. -/
def empty : StructureManager := ⟨fun _ _ => none⟩

end StructureManager

/-- A manager in which the structure at address 100 has the component at address 7 of
the component type 3, attached in a build without `_DEBUG`. -/
def sampleManager : StructureManager :=
  (StructureManager.attachComponent false StructureManager.empty 3 ⟨100⟩ (some ⟨7⟩)).2

/-! ## Tube placement (`insertTube` and `placeTubeEnd` of `OPHD/States/MapViewState.cpp`) -/

/-- Modelled from the spec: the declaration of `ConnectorDir` is not in the sources. Its
enumerators are the four connector directions `MapViewState.cpp` names. -/
inductive ConnectorDir where
  | CONNECTOR_INTERSECTION
  | CONNECTOR_RIGHT
  | CONNECTOR_LEFT
  | CONNECTOR_VERTICAL
  deriving DecidableEq, Repr

/-- A tile position `NAS2D::Point<int>`, also used for an offset `NAS2D::Vector<int>`. -/
structure Point where
  x : Int
  y : Int
  deriving DecidableEq, Repr

/-- The sum `point + vector`. -/
def Point.add (p v : Point) : Point := ⟨p.x + v.x, p.y + v.y⟩

/-- The difference `point - point`. -/
def Point.sub (p q : Point) : Point := ⟨p.x - q.x, p.y - q.y⟩

/-- The tile a `Tile*` points to, identified by its position and depth. -/
structure Tile where
  position : Point
  depth : Int
  deriving DecidableEq, Repr

/-- Modelled from the spec: the class `Tube` is not in the sources. The object built by
`new Tube(dir, underground)`. -/
structure Tube where
  connectorDirection : ConnectorDir
  underground : Bool
  deriving DecidableEq, Repr

/-- The structures registered with the Structure Manager, each with its tile, in the order
of registration (the member `mStructureTileTable`, for tubes). -/
abbrev StructureTileTable := List (Tube × Tile)

/-- Modelled from the spec: `StructureManager::addStructure(structure, tile)` is not in
the sources. It records the association of the new structure with its tile. -/
def addStructure (table : StructureTileTable) (tube : Tube) (tile : Tile) :
    StructureTileTable :=
  table ++ [(tube, tile)]

/-- Function `MapViewState::insertTube(dir, depth, tile)`, on the table of registered
structures. -/
def insertTube (table : StructureTileTable) (dir : ConnectorDir) (depth : Int) (tile : Tile) :
    Except Exception Unit × StructureTileTable :=
  if dir = ConnectorDir.CONNECTOR_VERTICAL then
    (Except.error (Exception.runtime_error
      "MapViewState::insertTube() called with invalid ConnectorDir paramter."), table)
  else
    (Except.ok (), addStructure table ⟨dir, decide (depth ≠ 0)⟩ tile)

/-- The C function `abs` on `int`. -/
def abs (x : Int) : Int := if x < 0 then -x else x

/-- The `switch (cd)` of `placeTubeEnd` that snaps the drag to an axis: the value of
`tubeEndOffset`, or `none` where the `default` branch returns. -/
def tubeEndOffset (cd : ConnectorDir) (startEndDirection : Point) : Option Point :=
  match cd with
  | ConnectorDir.CONNECTOR_INTERSECTION =>
    if abs startEndDirection.x ≥ abs startEndDirection.y then
      some ⟨startEndDirection.x, 0⟩
    else
      some ⟨0, startEndDirection.y⟩
  | ConnectorDir.CONNECTOR_RIGHT => some ⟨startEndDirection.x, 0⟩
  | ConnectorDir.CONNECTOR_LEFT => some ⟨0, startEndDirection.y⟩
  | _ => none

/-- The local `tubeLength` of `placeTubeEnd`. -/
def tubeLength (tubeEndOffset : Point) : Int := abs (tubeEndOffset.x + tubeEndOffset.y)

/-- The local `tubeDirection = tubeEndOffset / tubeLength` of `placeTubeEnd`, the
component-wise integer division. The source has no defined value for it when `tubeLength`
is zero; `placeTubeEnd` below does not use it then. -/
def tubeDirection (tubeEndOffset : Point) : Point :=
  ⟨Int.tdiv tubeEndOffset.x (tubeLength tubeEndOffset),
    Int.tdiv tubeEndOffset.y (tubeLength tubeEndOffset)⟩

/-- The variables of the `do ... while` loop of `placeTubeEnd`: the map and structure
state `world`, `position`, `endReach`, and the list of the positions at which the
iterations so far have run, one entry per iteration. -/
structure TubeLoop (W : Type) where
  world : W
  position : Point
  endReach : Bool
  visited : List Point

/-- What the drag placement reads and changes outside `placeTubeEnd`, none of it in the
sources: `tileUsable w p` says that `getVisibleTile(p, currentDepth())` returns a tile
with no thing and no mine on it that is bulldozed and excavated; `validTubeConnection` is
the function of that name; `insert w cd p` is the map after `insertTube(cd,
currentDepth(), &getTile(p))`, `disconnectAll()` and `checkConnectedness()`. -/
structure TubeWorld (W : Type) where
  tileUsable : W → Point → Bool
  validTubeConnection : W → Point → ConnectorDir → Bool
  insert : W → ConnectorDir → Point → W

/-- One iteration of the `do ... while` loop of `placeTubeEnd`. The tile is looked up at
`mTubeStart`, as in the source. -/
def placeTubeBody {W : Type} (env : TubeWorld W) (cd : ConnectorDir)
    (mTubeStart tubeEnd direction : Point) (st : TubeLoop W) : TubeLoop W :=
  let blocked : Bool :=
    !env.tileUsable st.world mTubeStart || !env.validTubeConnection st.world st.position cd
  let world := if blocked then st.world else env.insert st.world cd st.position
  let endReach := blocked || decide (st.position = tubeEnd)
  ⟨world, st.position.add direction, endReach, st.visited ++ [st.position]⟩

/-- The `do ... while (!endReach)` loop of `placeTubeEnd`, run for at most `fuel`
iterations: `none` when the loop has not ended within `fuel` iterations. -/
def placeTubeLoop {W : Type} (env : TubeWorld W) (cd : ConnectorDir)
    (mTubeStart tubeEnd direction : Point) : Nat → TubeLoop W → Option (TubeLoop W)
  | 0, _ => none
  | fuel + 1, st =>
    let st1 := placeTubeBody env cd mTubeStart tubeEnd direction st
    if st1.endReach then some st1 else placeTubeLoop env cd mTubeStart tubeEnd direction fuel st1

/-- How a call of `placeTubeEnd` ends. -/
inductive PlaceTubeResult (W : Type) where
  | notPlacing
  | noTile
  | connectorNotDraggable
  | divisionByZero
  | outOfFuel
  | placed (st : TubeLoop W)

/-- Function `MapViewState::placeTubeEnd()`. `hover` is the position of the visible tile
under the mouse (`none` when `getVisibleTile` returns no tile) and `cd` the connector
selected in the menu. The result is `divisionByZero` when `tubeEndOffset / tubeLength` is
evaluated with `tubeLength` zero. -/
def placeTubeEnd {W : Type} (env : TubeWorld W) (fuel : Nat) (mPlacingTube : Bool)
    (hover : Option Point) (cd : ConnectorDir) (mTubeStart : Point) (world : W) :
    PlaceTubeResult W :=
  if !mPlacingTube then PlaceTubeResult.notPlacing
  else
    match hover with
    | none => PlaceTubeResult.noTile
    | some tilePosition =>
      let startEndDirection := tilePosition.sub mTubeStart
      match tubeEndOffset cd startEndDirection with
      | none => PlaceTubeResult.connectorNotDraggable
      | some offset =>
        if tubeLength offset = 0 then PlaceTubeResult.divisionByZero
        else
          let direction := tubeDirection offset
          let tubeEnd := mTubeStart.add offset
          match placeTubeLoop env cd mTubeStart tubeEnd direction fuel
              ⟨world, mTubeStart, false, []⟩ with
          | none => PlaceTubeResult.outOfFuel
          | some st => PlaceTubeResult.placed st

/-- A map of bulldozed, excavated ground on which every connection is valid; its state is
the list of the tubes placed, as (connector, position), and a tile is usable until a tube
is placed on it. -/
def openGround : TubeWorld (List (ConnectorDir × Point)) :=
  ⟨fun w p => decide (∀ t ∈ w, t.2 ≠ p), fun _ _ _ => true, fun w cd p => w ++ [(cd, p)]⟩

/-- A mine facility like `sampleFacility` whose storage holds 125 of each material, one
quarter of `MineFacilityStorageCapacity`. -/
def fullStorageFacility : MineFacility :=
  { sampleFacility with storage := StorableResources.ofCounts 125 125 125 125 }

/-- A mine facility like `sampleFacility` whose production ledger has room for 15 more
units. -/
def nearlyFullProductionFacility : MineFacility :=
  { sampleFacility with production := ⟨485, 0, 0, 0, 500⟩ }

/-- A force-idle mine facility on `sampleMine`, in the third turn of a dig extension. -/
def forceIdleFacility : MineFacility :=
  { sampleFacility with
    mStructureState := StructureState.Idle, forceIdle := true, mDigTurnsRemaining := 3 }

/-! ## Population pool on the machine type `int`

The definitions of `PopulationPool` above compute on mathematical integers. The ones of
this section compute as the compiled code does on a 32-bit `int`: the result of every
addition and subtraction is reduced to the range of `int`. `noOverflow` says that no
result on the path a call takes leaves that range; there the two agree. -/

/-- The least value of a 32-bit `int`. -/
def INT_MIN : Int := -2147483648

/-- The greatest value of a 32-bit `int`. -/
def INT_MAX : Int := 2147483647

/-- The value `x` is in the range of `int`. -/
def fitsInt (x : Int) : Prop := INT_MIN ≤ x ∧ x ≤ INT_MAX

instance (x : Int) : Decidable (fitsInt x) := by
  unfold fitsInt; infer_instance

/-- The `int` that a 32-bit two's-complement addition or subtraction yields when its
mathematical result is `x`: `x` reduced modulo 2^32 into the range of `int`. -/
def wrapInt (x : Int) : Int := (x + 2147483648) % 4294967296 - 2147483648

namespace PopulationPool

/-- Function `PopulationPool::populationAvailable(role)` on 32-bit `int`. -/
def populationAvailable32 (p : PopulationPool) (role : Role) :
    Except Exception Int × PopulationPool :=
  match BasicCheck role with
  | Except.error e => (Except.error e, p)
  | Except.ok _ =>
    let employed := if role = Role.Scientist then p.scientistsEmployed else p.workersEmployed
    (Except.ok (wrapInt (p.mPopulation.size role - employed)), p)

/-- Function `PopulationPool::enoughPopulationAvailable(role, amount)` on 32-bit `int`. -/
def enoughPopulationAvailable32 (p : PopulationPool) (role : Role) (amount : Int) :
    Except Exception Bool × PopulationPool :=
  match BasicCheck role with
  | Except.error e => (Except.error e, p)
  | Except.ok _ =>
    match p.populationAvailable32 role with
    | (Except.error e, p1) => (Except.error e, p1)
    | (Except.ok available, p1) => (Except.ok (decide (available ≥ amount)), p1)

/-- Function `PopulationPool::usePopulation(role, amount)` on 32-bit `int`. -/
def usePopulation32 (p : PopulationPool) (role : Role) (amount : Int) :
    Except Exception Bool × PopulationPool :=
  match BasicCheck role with
  | Except.error e => (Except.error e, p)
  | Except.ok _ =>
    let scientistsAvailable :=
      wrapInt (p.mPopulation.size Role.Scientist -
        wrapInt (p.mScientistsAsWorkers + p.mScientistsUsed))
    let workersAvailable := wrapInt (p.mPopulation.size Role.Worker - p.mWorkersUsed)
    if role = Role.Scientist then
      if amount ≤ scientistsAvailable then
        (Except.ok true, { p with mScientistsUsed := wrapInt (p.mScientistsUsed + amount) })
      else
        (Except.ok false, p)
    else if role = Role.Worker then
      if amount ≤ wrapInt (workersAvailable + scientistsAvailable) then
        if amount ≤ workersAvailable then
          (Except.ok true, { p with mWorkersUsed := wrapInt (p.mWorkersUsed + amount) })
        else
          let remainder := wrapInt (amount - workersAvailable)
          (Except.ok true,
            { p with
              mWorkersUsed := wrapInt (p.mWorkersUsed + wrapInt (amount - remainder))
              mScientistsAsWorkers := wrapInt (p.mScientistsAsWorkers + remainder) })
      else
        (Except.ok false, p)
    else
      (Except.ok false, p)

/-- No addition or subtraction that `usePopulation(Worker, amount)` evaluates, on the path
it takes, has a result outside the range of `int`. -/
def workerNoOverflow (p : PopulationPool) (amount : Int) : Prop :=
  fitsInt (p.mScientistsAsWorkers + p.mScientistsUsed) ∧
  fitsInt (p.mPopulation.size Role.Scientist - (p.mScientistsAsWorkers + p.mScientistsUsed)) ∧
  fitsInt (p.mPopulation.size Role.Worker - p.mWorkersUsed) ∧
  fitsInt (p.mPopulation.size Role.Worker - p.mWorkersUsed +
    (p.mPopulation.size Role.Scientist - (p.mScientistsAsWorkers + p.mScientistsUsed))) ∧
  (amount ≤ p.mPopulation.size Role.Worker - p.mWorkersUsed +
      (p.mPopulation.size Role.Scientist - (p.mScientistsAsWorkers + p.mScientistsUsed)) →
    (amount ≤ p.mPopulation.size Role.Worker - p.mWorkersUsed →
      fitsInt (p.mWorkersUsed + amount)) ∧
    (¬ amount ≤ p.mPopulation.size Role.Worker - p.mWorkersUsed →
      fitsInt (amount - (p.mPopulation.size Role.Worker - p.mWorkersUsed)) ∧
      fitsInt (amount - (amount - (p.mPopulation.size Role.Worker - p.mWorkersUsed))) ∧
      fitsInt (p.mWorkersUsed +
        (amount - (amount - (p.mPopulation.size Role.Worker - p.mWorkersUsed)))) ∧
      fitsInt (p.mScientistsAsWorkers +
        (amount - (p.mPopulation.size Role.Worker - p.mWorkersUsed)))))

/-- No addition or subtraction that `usePopulation(Scientist, amount)` evaluates, on the
path it takes, has a result outside the range of `int`. -/
def scientistNoOverflow (p : PopulationPool) (amount : Int) : Prop :=
  fitsInt (p.mScientistsAsWorkers + p.mScientistsUsed) ∧
  fitsInt (p.mPopulation.size Role.Scientist - (p.mScientistsAsWorkers + p.mScientistsUsed)) ∧
  fitsInt (p.mPopulation.size Role.Worker - p.mWorkersUsed) ∧
  (amount ≤ p.mPopulation.size Role.Scientist -
      (p.mScientistsAsWorkers + p.mScientistsUsed) →
    fitsInt (p.mScientistsUsed + amount))

/-- No addition or subtraction that `usePopulation(role, amount)` evaluates has a result
outside the range of `int`. For the roles that `BasicCheck` refuses nothing is evaluated. -/
def noOverflow (p : PopulationPool) (role : Role) (amount : Int) : Prop :=
  match role with
  | Role.Worker => p.workerNoOverflow amount
  | Role.Scientist => p.scientistNoOverflow amount
  | _ => True

instance (p : PopulationPool) (amount : Int) : Decidable (p.workerNoOverflow amount) := by
  unfold workerNoOverflow; infer_instance

instance (p : PopulationPool) (amount : Int) : Decidable (p.scientistNoOverflow amount) := by
  unfold scientistNoOverflow; infer_instance

instance (p : PopulationPool) (role : Role) (amount : Int) :
    Decidable (p.noOverflow role amount) := by
  unfold noOverflow; cases role <;> infer_instance

end PopulationPool

/-- A pool over a colony of 2,000,000,000 workers and 2,000,000,000 scientists, nobody
employed. -/
def hugePool : PopulationPool := ⟨Population.ofCounts 0 0 2000000000 2000000000 0, 0, 0, 0⟩

/-! ## Theorems: population pool -/

namespace PopulationPool

theorem BasicCheck_worker : BasicCheck Role.Worker = Except.ok () := rfl

theorem BasicCheck_scientist : BasicCheck Role.Scientist = Except.ok () := rfl

theorem BasicCheck_invalid (role : Role)
    (h : role = Role.Child ∨ role = Role.Student ∨ role = Role.Retired) :
    BasicCheck role = Except.error (invalidRoleError role) := by
  unfold BasicCheck
  rw [if_pos h]

/-- The result and the effect of `usePopulation` for the role Scientist. -/
theorem usePopulation_scientist_eq (p : PopulationPool) (a : Int) :
    p.usePopulation Role.Scientist a =
      if a ≤ p.mPopulation.size Role.Scientist - (p.mScientistsAsWorkers + p.mScientistsUsed) then
        (Except.ok true, { p with mScientistsUsed := p.mScientistsUsed + a })
      else (Except.ok false, p) := by
  simp [usePopulation, BasicCheck_scientist]

/-- The result and the effect of `usePopulation` for the role Worker. -/
theorem usePopulation_worker_eq (p : PopulationPool) (a : Int) :
    p.usePopulation Role.Worker a =
      if a ≤ p.mPopulation.size Role.Worker - p.mWorkersUsed +
          (p.mPopulation.size Role.Scientist - (p.mScientistsAsWorkers + p.mScientistsUsed)) then
        if a ≤ p.mPopulation.size Role.Worker - p.mWorkersUsed then
          (Except.ok true, { p with mWorkersUsed := p.mWorkersUsed + a })
        else
          (Except.ok true,
            { p with
              mWorkersUsed :=
                p.mWorkersUsed + (a - (a - (p.mPopulation.size Role.Worker - p.mWorkersUsed)))
              mScientistsAsWorkers :=
                p.mScientistsAsWorkers + (a - (p.mPopulation.size Role.Worker - p.mWorkersUsed)) })
      else (Except.ok false, p) := by
  simp [usePopulation, BasicCheck_worker]

/-- A call with a role that is not workable throws and returns the pool as it was. -/
theorem usePopulation_invalid_eq (p : PopulationPool) (role : Role) (a : Int)
    (h : role = Role.Child ∨ role = Role.Student ∨ role = Role.Retired) :
    p.usePopulation role a = (Except.error (invalidRoleError role), p) := by
  simp [usePopulation, BasicCheck_invalid role h]

/-- The shortfall branch on mathematical integers: a Worker request `a` with
`workersAvailable < a <= workersAvailable + scientistsAvailable` returns true,
`workersUsed` increases by `workersAvailable`, `scientistsAsWorkers` increases by
`a - workersAvailable`, and the two increases sum to `a`. The statement for the 32-bit
`int` of the compiled code is `usePopulation32_worker_shortfall`. -/
theorem usePopulation_worker_shortfall (p : PopulationPool) (a : Int)
    (hlt : p.mPopulation.size Role.Worker - p.mWorkersUsed < a)
    (hle : a ≤ (p.mPopulation.size Role.Worker - p.mWorkersUsed) +
      (p.mPopulation.size Role.Scientist - p.mScientistsUsed - p.mScientistsAsWorkers)) :
    (p.usePopulation Role.Worker a).1 = Except.ok true ∧
    (p.usePopulation Role.Worker a).2.mWorkersUsed =
      p.mWorkersUsed + (p.mPopulation.size Role.Worker - p.mWorkersUsed) ∧
    (p.usePopulation Role.Worker a).2.mScientistsAsWorkers =
      p.mScientistsAsWorkers + (a - (p.mPopulation.size Role.Worker - p.mWorkersUsed)) ∧
    ((p.usePopulation Role.Worker a).2.mWorkersUsed - p.mWorkersUsed) +
      ((p.usePopulation Role.Worker a).2.mScientistsAsWorkers - p.mScientistsAsWorkers) = a := by
  have h1 : a ≤ p.mPopulation.size Role.Worker - p.mWorkersUsed +
      (p.mPopulation.size Role.Scientist - (p.mScientistsAsWorkers + p.mScientistsUsed)) := by
    omega
  have h2 : ¬ a ≤ p.mPopulation.size Role.Worker - p.mWorkersUsed := by omega
  rw [usePopulation_worker_eq, if_pos h1, if_neg h2]
  refine ⟨rfl, ?_, rfl, ?_⟩
  · show p.mWorkersUsed + (a - (a - (p.mPopulation.size Role.Worker - p.mWorkersUsed))) = _
    omega
  · show p.mWorkersUsed + (a - (a - (p.mPopulation.size Role.Worker - p.mWorkersUsed))) -
      p.mWorkersUsed + (p.mScientistsAsWorkers +
        (a - (p.mPopulation.size Role.Worker - p.mWorkersUsed)) - p.mScientistsAsWorkers) = a
    omega

/-- The shortfall branch on `samplePool`, which has 3 idle workers and 2 idle scientists,
when 4 workers are requested. -/
theorem usePopulation_worker_shortfall_witness :
    (samplePool.usePopulation Role.Worker 4).1 = Except.ok true ∧
    (samplePool.usePopulation Role.Worker 4).2.mWorkersUsed =
      samplePool.mWorkersUsed +
        (samplePool.mPopulation.size Role.Worker - samplePool.mWorkersUsed) ∧
    (samplePool.usePopulation Role.Worker 4).2.mScientistsAsWorkers =
      samplePool.mScientistsAsWorkers +
        (4 - (samplePool.mPopulation.size Role.Worker - samplePool.mWorkersUsed)) ∧
    ((samplePool.usePopulation Role.Worker 4).2.mWorkersUsed - samplePool.mWorkersUsed) +
      ((samplePool.usePopulation Role.Worker 4).2.mScientistsAsWorkers -
        samplePool.mScientistsAsWorkers) = 4 :=
  usePopulation_worker_shortfall samplePool 4 (by decide) (by decide)

/-- C3: `usePopulation` is all-or-nothing: for every role and amount, whenever it returns
false the counters `scientistsUsed`, `workersUsed` and `scientistsAsWorkers` are what they
were before the call. -/
theorem usePopulation_false_unchanged (p : PopulationPool) (role : Role) (a : Int)
    (h : (p.usePopulation role a).1 = Except.ok false) :
    (p.usePopulation role a).2.mScientistsUsed = p.mScientistsUsed ∧
    (p.usePopulation role a).2.mWorkersUsed = p.mWorkersUsed ∧
    (p.usePopulation role a).2.mScientistsAsWorkers = p.mScientistsAsWorkers := by
  cases role with
  | Scientist =>
    rw [usePopulation_scientist_eq] at h ⊢
    split_ifs at h ⊢ with h1
    · simp at h
    · exact ⟨rfl, rfl, rfl⟩
  | Worker =>
    rw [usePopulation_worker_eq] at h ⊢
    split_ifs at h ⊢ with h1 h2
    · simp at h
    · simp at h
    · exact ⟨rfl, rfl, rfl⟩
  | Child => rw [usePopulation_invalid_eq p _ a (by decide)]; exact ⟨rfl, rfl, rfl⟩
  | Student => rw [usePopulation_invalid_eq p _ a (by decide)]; exact ⟨rfl, rfl, rfl⟩
  | Retired => rw [usePopulation_invalid_eq p _ a (by decide)]; exact ⟨rfl, rfl, rfl⟩

/-- Witness of C3: 6 workers are requested from `samplePool`, which has 3 idle workers and
2 idle scientists. -/
theorem usePopulation_false_unchanged_witness :
    (samplePool.usePopulation Role.Worker 6).1 = Except.ok false ∧
    (samplePool.usePopulation Role.Worker 6).2.mScientistsUsed = samplePool.mScientistsUsed ∧
    (samplePool.usePopulation Role.Worker 6).2.mWorkersUsed = samplePool.mWorkersUsed ∧
    (samplePool.usePopulation Role.Worker 6).2.mScientistsAsWorkers =
      samplePool.mScientistsAsWorkers :=
  ⟨by decide, usePopulation_false_unchanged samplePool Role.Worker 6 (by decide)⟩

/-- C4: for Child, Student and Retired and every amount, `populationAvailable`,
`enoughPopulationAvailable` and `usePopulation` throw the invalid-role error and return
the pool as it was; for Worker and Scientist none of the three throws. -/
theorem invalid_role_throws (p : PopulationPool) (amount : Int) :
    (∀ role : Role, role = Role.Child ∨ role = Role.Student ∨ role = Role.Retired →
      p.populationAvailable role = (Except.error (invalidRoleError role), p) ∧
      p.enoughPopulationAvailable role amount = (Except.error (invalidRoleError role), p) ∧
      p.usePopulation role amount = (Except.error (invalidRoleError role), p)) ∧
    (∀ role : Role, role = Role.Worker ∨ role = Role.Scientist →
      (∃ n : Int, (p.populationAvailable role).1 = Except.ok n) ∧
      (∃ b : Bool, (p.enoughPopulationAvailable role amount).1 = Except.ok b) ∧
      (∃ b : Bool, (p.usePopulation role amount).1 = Except.ok b)) := by
  constructor
  · intro role h
    refine ⟨?_, ?_, usePopulation_invalid_eq p role amount h⟩
    · simp [populationAvailable, BasicCheck_invalid role h]
    · simp [enoughPopulationAvailable, BasicCheck_invalid role h]
  · intro role h
    rcases h with rfl | rfl
    · refine ⟨⟨_, rfl⟩, ⟨_, rfl⟩, ?_⟩
      rw [usePopulation_worker_eq]
      split_ifs <;> exact ⟨_, rfl⟩
    · refine ⟨⟨_, rfl⟩, ⟨_, rfl⟩, ?_⟩
      rw [usePopulation_scientist_eq]
      split_ifs <;> exact ⟨_, rfl⟩

/-- Witness of C4: students are requested from `samplePool` with amount zero. -/
theorem invalid_role_throws_witness :
    samplePool.populationAvailable Role.Student =
      (Except.error (invalidRoleError Role.Student), samplePool) ∧
    samplePool.enoughPopulationAvailable Role.Student 0 =
      (Except.error (invalidRoleError Role.Student), samplePool) ∧
    samplePool.usePopulation Role.Student 0 =
      (Except.error (invalidRoleError Role.Student), samplePool) :=
  (invalid_role_throws samplePool 0).1 Role.Student (by decide)

/-- C6: `clear()` sets `scientistsUsed`, `workersUsed` and `scientistsAsWorkers` to zero
from any state, and right after `clear()` `populationAvailable(r)` equals
`Population.size(r)` for Worker and for Scientist. -/
theorem clear_resets (p : PopulationPool) :
    p.clear.mScientistsUsed = 0 ∧ p.clear.mWorkersUsed = 0 ∧ p.clear.mScientistsAsWorkers = 0 ∧
    p.clear.mPopulation = p.mPopulation ∧
    (p.clear.populationAvailable Role.Worker).1 = Except.ok (p.mPopulation.size Role.Worker) ∧
    (p.clear.populationAvailable Role.Scientist).1 =
      Except.ok (p.mPopulation.size Role.Scientist) := by
  refine ⟨rfl, rfl, rfl, rfl, ?_, ?_⟩
  · simp [populationAvailable, BasicCheck_worker, workersEmployed, clear]
  · simp [populationAvailable, BasicCheck_scientist, scientistsEmployed, clear]

/-- The covered branch on mathematical integers: a Worker request `a <= workersAvailable`
(with `scientistsAvailable >= 0`) returns true, increases `workersUsed` by `a` and leaves
`scientistsAsWorkers` unchanged; and no Worker request, whatever it returns, changes
`scientistsUsed`. The statement for the 32-bit `int` of the compiled code is
`usePopulation32_worker_covered`. -/
theorem usePopulation_worker_covered (p : PopulationPool) (a : Int) :
    (a ≤ p.mPopulation.size Role.Worker - p.mWorkersUsed →
      0 ≤ p.mPopulation.size Role.Scientist - p.mScientistsUsed - p.mScientistsAsWorkers →
      (p.usePopulation Role.Worker a).1 = Except.ok true ∧
      (p.usePopulation Role.Worker a).2.mWorkersUsed = p.mWorkersUsed + a ∧
      (p.usePopulation Role.Worker a).2.mScientistsAsWorkers = p.mScientistsAsWorkers) ∧
    (p.usePopulation Role.Worker a).2.mScientistsUsed = p.mScientistsUsed := by
  constructor
  · intro hw hs
    have h1 : a ≤ p.mPopulation.size Role.Worker - p.mWorkersUsed +
        (p.mPopulation.size Role.Scientist - (p.mScientistsAsWorkers + p.mScientistsUsed)) := by
      omega
    rw [usePopulation_worker_eq, if_pos h1, if_pos hw]
    exact ⟨rfl, rfl, rfl⟩
  · rw [usePopulation_worker_eq]
    split_ifs <;> rfl

/-- The covered branch on `samplePool`, which has 3 idle workers, when 3 workers are
requested. -/
theorem usePopulation_worker_covered_witness :
    (samplePool.usePopulation Role.Worker 3).1 = Except.ok true ∧
    (samplePool.usePopulation Role.Worker 3).2.mWorkersUsed = samplePool.mWorkersUsed + 3 ∧
    (samplePool.usePopulation Role.Worker 3).2.mScientistsAsWorkers =
      samplePool.mScientistsAsWorkers :=
  (usePopulation_worker_covered samplePool 3).1 (by decide) (by decide)

end PopulationPool

/-! ## Theorems: ore refining -/

/-- What the conversion loop leaves in `converted`. -/
theorem convertLoop_converted (m : Int) (d : Fin 4 → Int) (ore : StorableResources) (j : Fin 4) :
    (convertLoop m d ore).1.resources j =
      if ore.resources j ≥ m then Int.tdiv m (d j) else 0 := by
  simp only [convertLoop, List.foldl, convertStep]
  fin_cases j <;>
    by_cases h0 : ore.resources 0 ≥ m <;> by_cases h1 : ore.resources 1 ≥ m <;>
    by_cases h2 : ore.resources 2 ≥ m <;> by_cases h3 : ore.resources 3 ≥ m <;>
    simp [h0, h1, h2, h3, StorableResources.set, StorableResources.zero, Function.update]

/-- What the conversion loop leaves in `ore`. -/
theorem convertLoop_ore (m : Int) (d : Fin 4 → Int) (ore : StorableResources) (j : Fin 4) :
    (convertLoop m d ore).2.resources j =
      ore.resources j - (if ore.resources j ≥ m then m else 0) := by
  simp only [convertLoop, List.foldl, convertStep]
  fin_cases j <;>
    by_cases h0 : ore.resources 0 ≥ m <;> by_cases h1 : ore.resources 1 ≥ m <;>
    by_cases h2 : ore.resources 2 ≥ m <;> by_cases h3 : ore.resources 3 ≥ m <;>
    simp [h0, h1, h2, h3, StorableResources.set, StorableResources.zero, Function.update]

/-- The test `overflow > StorableResources{ 0 }` holds when every counter is positive. -/
theorem gt_zero_iff (o : StorableResources) :
    o.gt StorableResources.zero = true ↔ ∀ j : Fin 4, 0 < o.resources j := by
  simp [StorableResources.gt, StorableResources.lt, StorableResources.zero]

/-- The overflow of a total is positive in the materials where the total exceeds the
limit, and zero in the others. -/
theorem sub_cap_resources (total : StorableResources) (limit : Int) (j : Fin 4) :
    ((total.sub (total.cap limit)).resources j = 0 ↔ total.resources j ≤ limit) ∧
    (0 < (total.sub (total.cap limit)).resources j ↔ limit < total.resources j) ∧
    (limit < total.resources j →
      (total.sub (total.cap limit)).resources j = total.resources j - limit) := by
  simp only [StorableResources.sub, StorableResources.cap]
  rcases le_total (total.resources j) limit with h | h
  · rw [min_eq_left h]; omega
  · rw [min_eq_right h]; omega

/-- Result of `OreRefining::updateProduction` when the overflow test fails. -/
theorem oreRefining_updateProduction_of_not_gt (m : Int) (s : Structure)
    (h : ((s.storage.add (OreRefining.converted m s)).sub
      ((s.storage.add (OreRefining.converted m s)).cap
        (OreRefining.IndividualMaterialCapacity s))).gt StorableResources.zero = false) :
    OreRefining.updateProduction m s =
      { s with
        production := (convertLoop m OreRefining.OreConversionDivisor s.production).2
        storage := s.storage.add ((s.storage.add (OreRefining.converted m s)).cap
          (OreRefining.IndividualMaterialCapacity s)) } := by
  unfold OreRefining.converted at h
  simp only [OreRefining.updateProduction, OreRefining.converted, h]
  rfl

/-- Result of `OreRefining::updateProduction` when the overflow test holds. -/
theorem oreRefining_updateProduction_of_gt (m : Int) (s : Structure)
    (h : ((s.storage.add (OreRefining.converted m s)).sub
      ((s.storage.add (OreRefining.converted m s)).cap
        (OreRefining.IndividualMaterialCapacity s))).gt StorableResources.zero = true) :
    OreRefining.updateProduction m s =
      { s with
        mStructureState := StructureState.Idle
        mIdleReason := IdleReason.InternalStorageFull
        production := (convertLoop m OreRefining.OreConversionDivisor s.production).2.add
          ((s.storage.add (OreRefining.converted m s)).sub
            ((s.storage.add (OreRefining.converted m s)).cap
              (OreRefining.IndividualMaterialCapacity s)))
        storage := s.storage.add ((s.storage.add (OreRefining.converted m s)).cap
          (OreRefining.IndividualMaterialCapacity s)) } := by
  unfold OreRefining.converted at h
  simp only [OreRefining.updateProduction, OreRefining.converted, h]
  rfl

/-- Result of `Smelter::updateProduction` when the overflow test fails. -/
theorem smelter_updateProduction_of_not_gt (m : Int) (s : Structure)
    (h : ((s.storage.add (Smelter.converted m s)).sub
      ((s.storage.add (Smelter.converted m s)).cap
        (Int.tdiv Smelter.StorageCapacity 4))).gt StorableResources.zero = false) :
    Smelter.updateProduction m s =
      { s with production := (convertLoop m Smelter.OreConversionDivisor s.production).2 } := by
  unfold Smelter.converted at h
  simp only [Smelter.updateProduction, Smelter.converted, h]
  rfl

/-- When no material exceeds the limit the overflow test fails. -/
theorem gt_zero_of_fits (total : StorableResources) (limit : Int)
    (h : ∀ j : Fin 4, total.resources j ≤ limit) :
    (total.sub (total.cap limit)).gt StorableResources.zero = false := by
  rw [Bool.eq_false_iff]
  intro hgt
  rw [gt_zero_iff] at hgt
  have h0 := ((sub_cap_resources total limit 0).2.1).1 (hgt 0)
  exact absurd (h 0) (not_le.mpr h0)

/-- The storage of `overfullRefinery` is what one `OreRefining::updateProduction` leaves
in an operational refinery that stored 150 of each material and had no ore. -/
theorem overfullRefinery_storage_reached :
    (OreRefining.updateProduction 20
      (refinery StorableResources.zero (StorableResources.ofCounts 150 150 150 150))).storage =
        overfullRefinery.storage ∧
    (OreRefining.updateProduction 20
      (refinery StorableResources.zero
        (StorableResources.ofCounts 150 150 150 150))).mStructureState =
          StructureState.Operational := by
  decide

/-- C10, the code at two failing inputs. In `oneMaterialFullRefinery` the converted output
pushes the storage of material 0, and of no other material, over the quarter capacity
(195 + 10 > 200): nothing is returned to production, whose counter of material 0 is 0 after
the call, and the structure stays operational instead of going idle, because the overflow
test asks for an excess in all four materials. In `nearlyFullRefinery` every material
overflows, the excess of 5 is returned to production and the structure goes idle with the
internal-storage-full reason, but `production_after + storage_after` is 5 + 395 = 400 for
material 0, where the previous storage plus `(production_before - consumed) + converted`
is 195 + 0 + 10 = 205 (and the sum without the previous storage is 10): the assignment
`storage() = storage() + capped` counts the previous storage twice. -/
theorem updateProduction_overflow_diverges :
    (OreRefining.IndividualMaterialCapacity oneMaterialFullRefinery <
        oneMaterialFullRefinery.storage.resources 0 +
          (OreRefining.converted 20 oneMaterialFullRefinery).resources 0 ∧
      (OreRefining.updateProduction 20 oneMaterialFullRefinery).production.resources 0 = 0 ∧
      (OreRefining.updateProduction 20 oneMaterialFullRefinery).storage.resources 0 = 395 ∧
      (OreRefining.updateProduction 20 oneMaterialFullRefinery).mStructureState =
        StructureState.Operational ∧
      (OreRefining.updateProduction 20 oneMaterialFullRefinery).mStructureState ≠
        StructureState.Idle) ∧
    ((∀ j : Fin 4, OreRefining.IndividualMaterialCapacity nearlyFullRefinery <
        nearlyFullRefinery.storage.resources j +
          (OreRefining.converted 20 nearlyFullRefinery).resources j) ∧
      (OreRefining.updateProduction 20 nearlyFullRefinery).mStructureState =
        StructureState.Idle ∧
      (OreRefining.updateProduction 20 nearlyFullRefinery).mIdleReason =
        IdleReason.InternalStorageFull ∧
      (OreRefining.updateProduction 20 nearlyFullRefinery).production.resources 0 = 5 ∧
      (OreRefining.updateProduction 20 nearlyFullRefinery).storage.resources 0 = 395 ∧
      (OreRefining.updateProduction 20 nearlyFullRefinery).production.resources 0 +
          (OreRefining.updateProduction 20 nearlyFullRefinery).storage.resources 0 = 400 ∧
      nearlyFullRefinery.storage.resources 0 +
        ((nearlyFullRefinery.production.resources 0 - 20) +
          (OreRefining.converted 20 nearlyFullRefinery).resources 0) = 205 ∧
      (nearlyFullRefinery.production.resources 0 - 20) +
          (OreRefining.converted 20 nearlyFullRefinery).resources 0 = 10) := by
  decide

/-- The two uniform cases of `OreRefining::updateProduction`. The converted output of a
material is `minimum / divisor` when its ore reaches the minimum and 0 otherwise. If the
converted output pushes storage over one quarter of capacity in every material, the excess
`storage_before + converted - quarter` has been returned to production after the call, so
that per material `production_after == (production_before - consumed) + (storage_before +
converted - quarter)`, and the structure is idle with the internal-storage-full reason.
If it pushes storage over the quarter in no material, `production_after ==
production_before - consumed` and the state and idle reason of the structure are
unchanged: it is not made idle. -/
theorem updateProduction_overflow (s : Structure) (m : Int) :
    (∀ j : Fin 4, (OreRefining.converted m s).resources j =
      if s.production.resources j ≥ m then Int.tdiv m (OreRefining.OreConversionDivisor j)
      else 0) ∧
    ((∀ j : Fin 4, OreRefining.IndividualMaterialCapacity s <
        s.storage.resources j + (OreRefining.converted m s).resources j) →
      (∀ j : Fin 4, (OreRefining.updateProduction m s).production.resources j =
        (s.production.resources j - (if s.production.resources j ≥ m then m else 0)) +
          (s.storage.resources j + (OreRefining.converted m s).resources j -
            OreRefining.IndividualMaterialCapacity s)) ∧
      (OreRefining.updateProduction m s).mStructureState = StructureState.Idle ∧
      (OreRefining.updateProduction m s).mIdleReason = IdleReason.InternalStorageFull) ∧
    ((∀ j : Fin 4, s.storage.resources j + (OreRefining.converted m s).resources j ≤
        OreRefining.IndividualMaterialCapacity s) →
      (∀ j : Fin 4, (OreRefining.updateProduction m s).production.resources j =
        s.production.resources j - (if s.production.resources j ≥ m then m else 0)) ∧
      (OreRefining.updateProduction m s).mStructureState = s.mStructureState ∧
      (OreRefining.updateProduction m s).mIdleReason = s.mIdleReason) := by
  refine ⟨fun j => convertLoop_converted m _ s.production j, ?_, ?_⟩
  · intro hall
    have hgt : ((s.storage.add (OreRefining.converted m s)).sub
        ((s.storage.add (OreRefining.converted m s)).cap
          (OreRefining.IndividualMaterialCapacity s))).gt StorableResources.zero = true := by
      rw [gt_zero_iff]
      intro j
      exact ((sub_cap_resources _ _ j).2.1).2 (hall j)
    rw [oreRefining_updateProduction_of_gt m s hgt]
    refine ⟨?_, rfl, rfl⟩
    intro j
    show (convertLoop m OreRefining.OreConversionDivisor s.production).2.resources j +
      ((s.storage.add (OreRefining.converted m s)).sub
        ((s.storage.add (OreRefining.converted m s)).cap
          (OreRefining.IndividualMaterialCapacity s))).resources j = _
    rw [convertLoop_ore, (sub_cap_resources _ _ j).2.2 (hall j)]
    rfl
  · intro hnone
    have hgt := gt_zero_of_fits (s.storage.add (OreRefining.converted m s))
      (OreRefining.IndividualMaterialCapacity s) hnone
    rw [oreRefining_updateProduction_of_not_gt m s hgt]
    refine ⟨?_, rfl, rfl⟩
    intro j
    exact convertLoop_ore m _ s.production j

/-- The two uniform cases on sample refineries: every material of `nearlyFullRefinery`
overflows, no material of `roomyRefinery` does. -/
theorem updateProduction_overflow_witness :
    ((∀ j : Fin 4, (OreRefining.updateProduction 20 nearlyFullRefinery).production.resources j =
        (nearlyFullRefinery.production.resources j -
          (if nearlyFullRefinery.production.resources j ≥ 20 then 20 else 0)) +
          (nearlyFullRefinery.storage.resources j +
            (OreRefining.converted 20 nearlyFullRefinery).resources j -
            OreRefining.IndividualMaterialCapacity nearlyFullRefinery)) ∧
      (OreRefining.updateProduction 20 nearlyFullRefinery).mStructureState =
        StructureState.Idle ∧
      (OreRefining.updateProduction 20 nearlyFullRefinery).mIdleReason =
        IdleReason.InternalStorageFull) ∧
    ((∀ j : Fin 4, (OreRefining.updateProduction 20 roomyRefinery).production.resources j =
        roomyRefinery.production.resources j -
          (if roomyRefinery.production.resources j ≥ 20 then 20 else 0)) ∧
      (OreRefining.updateProduction 20 roomyRefinery).mStructureState =
        roomyRefinery.mStructureState ∧
      (OreRefining.updateProduction 20 roomyRefinery).mIdleReason =
        roomyRefinery.mIdleReason) :=
  ⟨(updateProduction_overflow nearlyFullRefinery 20).2.1 (by decide),
    (updateProduction_overflow roomyRefinery 20).2.2 (by decide)⟩

/-- C11, the code at a failing input: `halfFullRefinery` stores 150 of each material, no
more than the quarter capacity 200, and has no ore, so that the previous storage plus the
converted output, truncated to the quarter capacity, is 150 of each; after
`OreRefining::updateProduction` the storage holds 300 of each, above the quarter capacity.
In `roomyRefinery` (storage 40, 10, 0, 5 and 10 units converted for material 0) the
truncated sum is 50, 10, 0, 5 and the storage after the call is 90, 20, 0, 10. -/
theorem updateProduction_storage_double_counted :
    (∀ j : Fin 4, halfFullRefinery.storage.resources j ≤
      OreRefining.IndividualMaterialCapacity halfFullRefinery) ∧
    OreRefining.IndividualMaterialCapacity halfFullRefinery = 200 ∧
    (halfFullRefinery.storage.add (OreRefining.converted 20 halfFullRefinery)).cap
      (OreRefining.IndividualMaterialCapacity halfFullRefinery) =
        StorableResources.ofCounts 150 150 150 150 ∧
    (OreRefining.updateProduction 20 halfFullRefinery).storage =
      StorableResources.ofCounts 300 300 300 300 ∧
    (roomyRefinery.storage.add (OreRefining.converted 20 roomyRefinery)).cap
      (OreRefining.IndividualMaterialCapacity roomyRefinery) =
        StorableResources.ofCounts 50 10 0 5 ∧
    (OreRefining.updateProduction 20 roomyRefinery).storage =
      StorableResources.ofCounts 90 20 0 10 := by
  decide

/-- C12, counterexample: with a batch of 20 of every material, the row "Common Minerals"
of the inspector table shows index 1 and the row "Rare Metal" index 2; the converted
output of index 1 (common minerals) is 10, which is 20 / 2 and not 20 / 3, and the
converted output of index 2 (rare metal) is 6, which is 20 / 3 and not 20 / 2. -/
theorem conversion_divisor_counterexample :
    ("Common Minerals", (1 : Fin 4)) ∈ OreRefining.inspectorRows ∧
    ("Rare Metal", (2 : Fin 4)) ∈ OreRefining.inspectorRows ∧
    nearlyFullRefinery.production.resources 1 ≥ 20 ∧
    nearlyFullRefinery.production.resources 2 ≥ 20 ∧
    (OreRefining.converted 20 nearlyFullRefinery).resources 1 = 10 ∧
    (OreRefining.converted 20 nearlyFullRefinery).resources 1 ≠ Int.tdiv 20 3 ∧
    (OreRefining.converted 20 nearlyFullRefinery).resources 2 = 6 ∧
    (OreRefining.converted 20 nearlyFullRefinery).resources 2 ≠ Int.tdiv 20 2 ∧
    (Smelter.converted 20 nearlyFullRefinery).resources 1 ≠ Int.tdiv 20 3 ∧
    (Smelter.converted 20 nearlyFullRefinery).resources 2 ≠ Int.tdiv 20 2 := by
  decide

/-- C12 (amended): the conversion divisors are 2:1 for common metals and common minerals
and 3:1 for rare metals and rare minerals. With the ledger indices read as the inspector
table reads them (index 0 common metal, 1 common minerals, 2 rare metal, 3 rare minerals),
a converted batch of size `m` yields `m / 2` (integer division) units for index 0 and
index 1 and `m / 3` units for index 2 and index 3, in the refining base and in the
Smelter. -/
theorem conversion_divisor (m : Int) (s : Structure) (j : Fin 4)
    (h : s.production.resources j ≥ m) :
    OreRefining.inspectorRows =
      [("Common Metal", 0), ("Rare Metal", 2), ("Common Minerals", 1), ("Rare Minerals", 3)] ∧
    (OreRefining.converted m s).resources j =
      (if j = 0 ∨ j = 1 then Int.tdiv m 2 else Int.tdiv m 3) ∧
    (Smelter.converted m s).resources j =
      (if j = 0 ∨ j = 1 then Int.tdiv m 2 else Int.tdiv m 3) := by
  refine ⟨rfl, ?_, ?_⟩
  · unfold OreRefining.converted
    rw [convertLoop_converted, if_pos h]
    fin_cases j <;> simp [OreRefining.OreConversionDivisor]
  · unfold Smelter.converted
    rw [convertLoop_converted, if_pos h]
    fin_cases j <;> simp [Smelter.OreConversionDivisor]

/-- Witness of C12 (amended): a batch of 20 of rare metal (index 2) in
`nearlyFullRefinery`. -/
theorem conversion_divisor_witness :
    (OreRefining.converted 20 nearlyFullRefinery).resources 2 =
      (if (2 : Fin 4) = 0 ∨ (2 : Fin 4) = 1 then Int.tdiv 20 2 else Int.tdiv 20 3) ∧
    (Smelter.converted 20 nearlyFullRefinery).resources 2 =
      (if (2 : Fin 4) = 0 ∨ (2 : Fin 4) = 1 then Int.tdiv 20 2 else Int.tdiv 20 3) :=
  (conversion_divisor 20 nearlyFullRefinery 2 (by decide)).2

/-- C13, the code at a failing input: `freshSmelter` is operational, holds the minimum
batch 20 of material 0, and its storage of material 0 plus 20 / 2 is within the quarter
capacity 200. After `Smelter::think()` the ore of material 0 has dropped by 20 and the
storage of material 0 is still 0, not 10. `OreRefining::think()` on the same state leaves
10 in the storage of material 0. -/
theorem smelter_think_storage_unchanged :
    freshSmelter.operational = true ∧
    freshSmelter.production.resources 0 ≥ 20 ∧
    freshSmelter.storage.resources 0 + Int.tdiv 20 (Smelter.OreConversionDivisor 0) ≤
      Int.tdiv Smelter.StorageCapacity 4 ∧
    Int.tdiv 20 (Smelter.OreConversionDivisor 0) = 10 ∧
    (Smelter.think 20 freshSmelter).production.resources 0 =
      freshSmelter.production.resources 0 - 20 ∧
    (Smelter.think 20 freshSmelter).storage.resources 0 = 0 ∧
    (Smelter.think 20 freshSmelter).storage = freshSmelter.storage ∧
    (OreRefining.think 20 freshSmelter).storage.resources 0 = 10 := by
  decide

/-- C14: at the start of `think()` (of the refining base and of the Smelter), an idle
structure whose storage is below the quarter-capacity threshold in every material is
enabled and runs `updateProduction` in that same `think()`; an idle structure whose
storage is not below the threshold is left by `think()` as it was: it stays idle and its
production and storage ledgers are unchanged. -/
theorem think_reenable (m : Int) (s : Structure)
    (hidle : s.mStructureState = StructureState.Idle) :
    ((∀ j : Fin 4, s.storage.resources j < OreRefining.IndividualMaterialCapacity s) →
      s.enable.operational = true ∧
      OreRefining.think m s = OreRefining.updateProduction m s.enable) ∧
    (¬ (∀ j : Fin 4, s.storage.resources j < OreRefining.IndividualMaterialCapacity s) →
      OreRefining.think m s = s) ∧
    ((∀ j : Fin 4, s.storage.resources j < Int.tdiv Smelter.StorageCapacity 4) →
      s.enable.operational = true ∧
      Smelter.think m s = Smelter.updateProduction m s.enable) ∧
    (¬ (∀ j : Fin 4, s.storage.resources j < Int.tdiv Smelter.StorageCapacity 4) →
      Smelter.think m s = s) := by
  have hI : s.isIdle = true := by simp [Structure.isIdle, hidle]
  have hO : s.operational = false := by simp [Structure.operational, hidle]
  have hE : s.enable.operational = true := by simp [Structure.operational, Structure.enable]
  refine ⟨?_, ?_, ?_, ?_⟩
  · intro h
    have hlt : s.storage.lt
        (StorableResources.ofLimit (OreRefining.IndividualMaterialCapacity s)) = true := by
      simpa [StorableResources.lt, StorableResources.ofLimit] using h
    refine ⟨hE, ?_⟩
    simp only [OreRefining.think, hI, hlt, if_true, hE]
  · intro h
    have hlt : s.storage.lt
        (StorableResources.ofLimit (OreRefining.IndividualMaterialCapacity s)) = false := by
      simpa [StorableResources.lt, StorableResources.ofLimit] using h
    simp [OreRefining.think, hI, hlt, hO]
  · intro h
    have hlt : s.storage.lt
        (StorableResources.ofLimit (Int.tdiv Smelter.StorageCapacity 4)) = true := by
      simpa [StorableResources.lt, StorableResources.ofLimit] using h
    refine ⟨hE, ?_⟩
    simp only [Smelter.think, hI, hlt, if_true, hE]
  · intro h
    have hlt : s.storage.lt
        (StorableResources.ofLimit (Int.tdiv Smelter.StorageCapacity 4)) = false := by
      simpa [StorableResources.lt, StorableResources.ofLimit] using h
    simp [Smelter.think, hI, hlt, hO]

/-- Witness of C14: an idle refinery that stores 100 of each material is enabled and
converts its batch; an idle refinery that stores 200 of material 0 stays as it is. -/
theorem think_reenable_witness :
    (OreRefining.think 20
        (idleRefinery (StorableResources.ofCounts 20 0 0 0)
          (StorableResources.ofCounts 100 100 100 100)) =
      OreRefining.updateProduction 20
        (idleRefinery (StorableResources.ofCounts 20 0 0 0)
          (StorableResources.ofCounts 100 100 100 100)).enable) ∧
    (OreRefining.think 20
        (idleRefinery (StorableResources.ofCounts 20 0 0 0)
          (StorableResources.ofCounts 200 0 0 0)) =
      idleRefinery (StorableResources.ofCounts 20 0 0 0)
        (StorableResources.ofCounts 200 0 0 0)) ∧
    (Smelter.think 20
        (idleRefinery (StorableResources.ofCounts 20 0 0 0)
          (StorableResources.ofCounts 100 100 100 100)) =
      Smelter.updateProduction 20
        (idleRefinery (StorableResources.ofCounts 20 0 0 0)
          (StorableResources.ofCounts 100 100 100 100)).enable) ∧
    (Smelter.think 20
        (idleRefinery (StorableResources.ofCounts 20 0 0 0)
          (StorableResources.ofCounts 200 0 0 0)) =
      idleRefinery (StorableResources.ofCounts 20 0 0 0)
        (StorableResources.ofCounts 200 0 0 0)) :=
  ⟨((think_reenable 20 _ rfl).1 (by decide)).2,
    (think_reenable 20 _ rfl).2.1 (by decide),
    ((think_reenable 20 _ rfl).2.2.1 (by decide)).2,
    (think_reenable 20 _ rfl).2.2.2 (by decide)⟩

/-! ## Theorems: mine facility -/

/-- The call of `MineFacility::think()` on a facility that is not force-idle and is in a
dig extension. -/
theorem think_digging (rate : Int) (pull : Mine → OreType → Int → Int × Mine)
    (f : MineFacility) (hforce : f.forceIdle = false) (hdig : 0 < f.mDigTurnsRemaining) :
    MineFacility.think rate pull f =
      ({ f with
          mDigTurnsRemaining := f.mDigTurnsRemaining - 1
          mMine := if f.mDigTurnsRemaining - 1 = 0 then f.mMine.increaseDepth else f.mMine },
        []) := by
  unfold MineFacility.think
  simp only [hforce, Bool.false_eq_true, if_false, gt_iff_lt, hdig, if_true]
  split_ifs <;> rfl

/-- C15, the code at a failing input: `sampleFacility` is operational, not force-idle and
not in a dig extension, its mine is active, not exhausted and yields all four ore types,
and its storage is empty. With a rate of 10, `think()` pulls 10 of each ore type and
pushes it into the production ledger, and the storage ledger is still empty after the
call: no storage counter has grown by the corresponding production counter. -/
theorem mineFacility_think_storage_unchanged :
    sampleFacility.forceIdle = false ∧
    sampleFacility.extending = false ∧
    sampleFacility.mMine.active = true ∧
    sampleFacility.mMine.exhausted = false ∧
    (∀ j : Fin 4, sampleFacility.storage.resources j <
      Int.tdiv MineFacilityStorageCapacity 4) ∧
    (MineFacility.think 10 Mine.pullAvailable sampleFacility).2 =
      [(OreType.ORE_COMMON_METALS, 10), (OreType.ORE_COMMON_MINERALS, 10),
        (OreType.ORE_RARE_METALS, 10), (OreType.ORE_RARE_MINERALS, 10)] ∧
    (MineFacility.think 10 Mine.pullAvailable sampleFacility).1.production =
      ⟨10, 10, 10, 10, 500⟩ ∧
    (MineFacility.think 10 Mine.pullAvailable sampleFacility).1.storage =
      sampleFacility.storage ∧
    (MineFacility.think 10 Mine.pullAvailable sampleFacility).1.storage.resources 0 ≠
      sampleFacility.storage.resources 0 +
        (MineFacility.think 10 Mine.pullAvailable sampleFacility).1.production.commonMetalsOre := by
  decide

/-- C16: for a facility that is not force-idle and not in a dig extension, if the mine is
exhausted, or the mine is active and every storage counter has reached one quarter of
`MineFacilityStorageCapacity`, or the mine is inactive, then after `think()` the facility
is idle, no request was made to `Mine::pull` during the call, and the mine is as it was. -/
theorem think_idle_conditions (rate : Int) (pull : Mine → OreType → Int → Int × Mine)
    (f : MineFacility) (hforce : f.forceIdle = false) (hdig : f.extending = false)
    (h : f.mMine.exhausted = true ∨
      (f.mMine.active = true ∧
        ∀ j : Fin 4, f.storage.resources j ≥ Int.tdiv MineFacilityStorageCapacity 4) ∨
      f.mMine.active = false) :
    (MineFacility.think rate pull f).1.isIdle = true ∧
    (MineFacility.think rate pull f).2 = [] ∧
    (MineFacility.think rate pull f).1.mMine = f.mMine := by
  have hdig0 : ¬ f.mDigTurnsRemaining > 0 := by
    simpa [MineFacility.extending] using hdig
  have hidle : ∀ (g : MineFacility) (r : IdleReason), (g.idle r).isIdle = true := by
    intro g r
    simp [MineFacility.idle, MineFacility.isIdle]
  have hmine : (MineFacility.reenable f).mMine = f.mMine := by
    unfold MineFacility.reenable
    split_ifs <;> rfl
  have hstorage : (MineFacility.reenable f).storage = f.storage := by
    unfold MineFacility.reenable
    split_ifs <;> rfl
  unfold MineFacility.think
  simp only [hforce, Bool.false_eq_true, if_false, hdig0, hmine, hstorage]
  rcases h with hex | ⟨hact, hfull⟩ | hinact
  · simp only [hex, if_true]
    exact ⟨hidle _ _, by simp, hmine⟩
  · have hge : f.storage.ge
        (StorableResources.ofLimit (Int.tdiv MineFacilityStorageCapacity 4)) = true := by
      simpa [StorableResources.ge, StorableResources.ofLimit] using hfull
    simp only [hact, hge, if_true]
    split_ifs
    · exact ⟨hidle _ _, by simp, hmine⟩
    · exact ⟨hidle _ _, by simp, hmine⟩
  · simp only [hinact, Bool.false_eq_true, if_false]
    have hre : MineFacility.reenable f = f := by
      unfold MineFacility.reenable
      simp [hinact]
    rw [hre]
    by_cases hex : f.mMine.exhausted = true
    · simp only [hex, if_true]
      exact ⟨hidle _ _, by simp, rfl⟩
    · simp only [hex, Bool.false_eq_true, if_false]
      by_cases hi : f.isIdle = true
      · simp [hi]
      · simp only [hi, Bool.not_false, Bool.false_eq_true, Bool.not_eq_true] at hi ⊢
        simp only [hi, Bool.not_false, if_true]
        exact ⟨hidle _ _, by simp, rfl⟩

/-- Witness of C16: `sampleFacility` with its mine switched off. -/
theorem think_idle_conditions_witness :
    (MineFacility.think 10 Mine.pullAvailable
      { sampleFacility with mMine := { sampleMine with active := false } }).1.isIdle = true ∧
    (MineFacility.think 10 Mine.pullAvailable
      { sampleFacility with mMine := { sampleMine with active := false } }).2 = [] ∧
    (MineFacility.think 10 Mine.pullAvailable
      { sampleFacility with mMine := { sampleMine with active := false } }).1.mMine =
        { sampleMine with active := false } :=
  think_idle_conditions 10 Mine.pullAvailable
    { sampleFacility with mMine := { sampleMine with active := false } } rfl rfl
    (Or.inr (Or.inr rfl))

/-- The facility after `k` calls of `think()` that follow an accepted `extend()`, for `k`
up to the extension time. -/
theorem thinkTimes_extend (rate : Int) (pull : Mine → OreType → Int → Int × Mine)
    (extensionTime : Int) (f : MineFacility)
    (hcan : f.canExtend = true) (hforce : f.forceIdle = false) (k : Nat)
    (hk : (k : Int) ≤ extensionTime) :
    MineFacility.thinkTimes rate pull k (MineFacility.extend extensionTime f) =
      { f with
        mDigTurnsRemaining := extensionTime - k
        mMine := if (k : Int) = extensionTime ∧ 0 < k then f.mMine.increaseDepth
          else f.mMine } := by
  induction k with
  | zero =>
    simp [MineFacility.thinkTimes, MineFacility.extend, hcan]
  | succ n ih =>
    have hn : (n : Int) ≤ extensionTime := by push_cast at hk; omega
    have hlt : (n : Int) < extensionTime := by push_cast at hk; omega
    rw [MineFacility.thinkTimes, ih hn]
    have hne : ¬ ((n : Int) = extensionTime ∧ 0 < n) := by
      intro h
      omega
    rw [if_neg hne]
    have hpos : 0 < ({ f with mDigTurnsRemaining := extensionTime - (n : Int) } :
        MineFacility).mDigTurnsRemaining := by
      show 0 < extensionTime - (n : Int)
      omega
    rw [think_digging rate pull { f with mDigTurnsRemaining := extensionTime - (n : Int) }
      hforce hpos]
    have e1 : extensionTime - (n : Int) - 1 = extensionTime - ((n + 1 : Nat) : Int) := by
      push_cast; ring
    simp only [MineFacility.mk.injEq, true_and, and_true]
    refine ⟨?_, e1⟩
    by_cases hlast : ((n + 1 : Nat) : Int) = extensionTime
    · have h0 : extensionTime - (n : Int) - 1 = 0 := by rw [e1]; omega
      rw [if_pos h0, if_pos ⟨hlast, Nat.succ_pos n⟩]
    · have h0 : ¬ extensionTime - (n : Int) - 1 = 0 := by rw [e1]; omega
      rw [if_neg h0, if_neg (fun h => hlast h.1)]

/-- C17: if `extend()` is called while `canExtend()` is true on a facility that is not
force-idle, with `N = BASE_MINE_SHAFT_EXTENSION_TIME > 0`, then after `k` of the next `N`
calls of `think()` (`k = 0, ..., N`) `digTimeRemaining()` is `N - k`, both ledgers are as
before, and the mine is as before except that its depth has been increased once, exactly
when `k = N`; each of these `N` calls makes no request to `Mine::pull`; and `extending()`
is true exactly while the countdown is above zero. -/
theorem dig_extension (rate : Int) (pull : Mine → OreType → Int → Int × Mine)
    (N : Int) (hN : 0 < N) (f : MineFacility)
    (hcan : f.canExtend = true) (hforce : f.forceIdle = false) (k : Nat)
    (hk : (k : Int) ≤ N) :
    (MineFacility.thinkTimes rate pull k (MineFacility.extend N f)).digTimeRemaining = N - k ∧
    (MineFacility.thinkTimes rate pull k (MineFacility.extend N f)).production =
      f.production ∧
    (MineFacility.thinkTimes rate pull k (MineFacility.extend N f)).storage = f.storage ∧
    (MineFacility.thinkTimes rate pull k (MineFacility.extend N f)).mMine =
      (if (k : Int) = N then f.mMine.increaseDepth else f.mMine) ∧
    f.mMine.increaseDepth.depth = f.mMine.depth + 1 ∧
    ((k : Int) < N →
      (MineFacility.think rate pull
        (MineFacility.thinkTimes rate pull k (MineFacility.extend N f))).2 = []) ∧
    ((MineFacility.thinkTimes rate pull k (MineFacility.extend N f)).extending = true ↔
      0 < (MineFacility.thinkTimes rate pull k (MineFacility.extend N f)).digTimeRemaining) := by
  rw [thinkTimes_extend rate pull N f hcan hforce k hk]
  refine ⟨rfl, rfl, rfl, ?_, rfl, ?_, ?_⟩
  · show (if (k : Int) = N ∧ 0 < k then f.mMine.increaseDepth else f.mMine) = _
    by_cases h : (k : Int) = N
    · have hpos : 0 < k := by omega
      rw [if_pos ⟨h, hpos⟩, if_pos h]
    · rw [if_neg (fun hh => h hh.1), if_neg h]
  · intro hlt
    have hne : ¬ ((k : Int) = N ∧ 0 < k) := fun h => by omega
    rw [if_neg hne]
    have hpos : 0 < ({ f with mDigTurnsRemaining := N - (k : Int) } :
        MineFacility).mDigTurnsRemaining := by
      show 0 < N - (k : Int)
      omega
    rw [think_digging rate pull { f with mDigTurnsRemaining := N - (k : Int) } hforce hpos]
  · simp [MineFacility.extending, MineFacility.digTimeRemaining]

/-- Witness of C17: an extension of 5 turns on `sampleFacility`, observed after the fifth
call of `think()`. -/
theorem dig_extension_witness :
    (MineFacility.thinkTimes 10 Mine.pullAvailable 5
      (MineFacility.extend 5 sampleFacility)).digTimeRemaining = 5 - ((5 : Nat) : Int) ∧
    (MineFacility.thinkTimes 10 Mine.pullAvailable 5
      (MineFacility.extend 5 sampleFacility)).production = sampleFacility.production ∧
    (MineFacility.thinkTimes 10 Mine.pullAvailable 5
      (MineFacility.extend 5 sampleFacility)).storage = sampleFacility.storage ∧
    (MineFacility.thinkTimes 10 Mine.pullAvailable 5
      (MineFacility.extend 5 sampleFacility)).mMine =
        (if (((5 : Nat) : Int)) = 5 then sampleFacility.mMine.increaseDepth
          else sampleFacility.mMine) :=
  ⟨(dig_extension 10 Mine.pullAvailable 5 (by decide) sampleFacility rfl rfl 5 (by decide)).1,
    (dig_extension 10 Mine.pullAvailable 5 (by decide) sampleFacility rfl rfl 5
      (by decide)).2.1,
    (dig_extension 10 Mine.pullAvailable 5 (by decide) sampleFacility rfl rfl 5
      (by decide)).2.2.1,
    (dig_extension 10 Mine.pullAvailable 5 (by decide) sampleFacility rfl rfl 5
      (by decide)).2.2.2.1⟩

/-! ## Theorems: component table -/

/-- The result of `tryGet` when the sub-table has no entry for the key. -/
theorem tryGet_of_absent (m : StructureManager) (id : ComponentTypeID) (s : SKey)
    (h : m.mComponents id s = none) : m.tryGet id s = none := by
  simp [StructureManager.tryGet, h]

/-- When `tryGet` finds a component the sub-table has an entry for the key. -/
theorem present_of_tryGet (m : StructureManager) (id : ComponentTypeID) (s : SKey)
    (c : StructureComponent) (h : m.tryGet id s = some c) :
    m.mComponents id s = some (some c) := by
  unfold StructureManager.tryGet at h
  cases hm : m.mComponents id s with
  | none => rw [hm] at h; exact absurd h (by simp)
  | some p => rw [hm] at h; rw [show p = some c from h]

/-- An `attachComponent` on a key that has an entry leaves the manager as it was. -/
theorem attachComponent_of_present (debug : Bool) (m : StructureManager)
    (id : ComponentTypeID) (s : SKey) (p component : Option StructureComponent)
    (h : m.mComponents id s = some p) :
    m.attachComponent debug id s component =
      (if debug then
        Except.error (Exception.runtime_error
          "Structure::Attach() was called on a Structure that already had the component!")
      else Except.ok (), m) := by
  unfold StructureManager.attachComponent
  rw [h]
  cases debug <;> rfl

/-- An `attachComponent` on a key that has no entry adds the entry. -/
theorem attachComponent_of_absent (debug : Bool) (m : StructureManager)
    (id : ComponentTypeID) (s : SKey) (component : Option StructureComponent)
    (h : m.mComponents id s = none) :
    m.attachComponent debug id s component =
      (Except.ok (),
        ⟨Function.update m.mComponents id
          (Function.update (m.mComponents id) s (some component))⟩) := by
  unfold StructureManager.attachComponent
  rw [h]
  cases debug <;> rfl

/-- C18, counterexample: in a build without `_DEBUG`, the structure at address 100 of
`sampleManager` already has the component at address 7 of type 3, and attaching the
component at address 8 of type 3 to it returns normally: no error is raised. -/
theorem double_attach_counterexample :
    sampleManager.tryGet 3 ⟨100⟩ = some ⟨7⟩ ∧
    (sampleManager.attachComponent false 3 ⟨100⟩ (some ⟨8⟩)).1 = Except.ok () ∧
    (∀ e : Exception,
      (sampleManager.attachComponent false 3 ⟨100⟩ (some ⟨8⟩)).1 ≠ Except.error e) := by
  have h1 : (sampleManager.attachComponent false 3 ⟨100⟩ (some ⟨8⟩)).1 = Except.ok () := by
    decide
  refine ⟨by decide, h1, fun e he => ?_⟩
  rw [h1] at he
  cases he

/-- C18 (amended): calling `attachComponent<T>(s, c2)` when `s` already has a `T`
component throws `std::runtime_error` in a build with `_DEBUG` defined and returns
normally without `_DEBUG`; in both builds the manager is left as it was, so the component
previously attached for `(s, T)` is still the one returned by `tryGet<T>(s)`. -/
theorem double_attach (m : StructureManager) (id : ComponentTypeID) (s : SKey)
    (c1 : StructureComponent) (c2 : Option StructureComponent)
    (h : m.tryGet id s = some c1) :
    (m.attachComponent true id s c2).1 =
      Except.error (Exception.runtime_error
        "Structure::Attach() was called on a Structure that already had the component!") ∧
    (m.attachComponent false id s c2).1 = Except.ok () ∧
    (∀ debug : Bool,
      (m.attachComponent debug id s c2).2.tryGet id s = some c1 ∧
      ∀ (id1 : ComponentTypeID) (s1 : SKey),
        (m.attachComponent debug id s c2).2.tryGet id1 s1 = m.tryGet id1 s1) := by
  have hp := present_of_tryGet m id s c1 h
  refine ⟨?_, ?_, ?_⟩
  · rw [attachComponent_of_present true m id s _ c2 hp]
    rfl
  · rw [attachComponent_of_present false m id s _ c2 hp]
    rfl
  · intro debug
    rw [attachComponent_of_present debug m id s _ c2 hp]
    exact ⟨h, fun _ _ => rfl⟩

/-- Witness of C18 (amended): a second component of type 3 is attached to the structure at
address 100 of `sampleManager`. -/
theorem double_attach_witness :
    (sampleManager.attachComponent true 3 ⟨100⟩ (some ⟨8⟩)).1 =
      Except.error (Exception.runtime_error
        "Structure::Attach() was called on a Structure that already had the component!") ∧
    (sampleManager.attachComponent false 3 ⟨100⟩ (some ⟨8⟩)).1 = Except.ok () ∧
    (sampleManager.attachComponent true 3 ⟨100⟩ (some ⟨8⟩)).2.tryGet 3 ⟨100⟩ = some ⟨7⟩ :=
  ⟨(double_attach sampleManager 3 ⟨100⟩ ⟨7⟩ (some ⟨8⟩) (by decide)).1,
    (double_attach sampleManager 3 ⟨100⟩ ⟨7⟩ (some ⟨8⟩) (by decide)).2.1,
    ((double_attach sampleManager 3 ⟨100⟩ ⟨7⟩ (some ⟨8⟩) (by decide)).2.2 true).1⟩

/-- C19, counterexample: in a build without `_DEBUG`, the structure at address 101 has no
component of type 3 in `sampleManager`, and `get` throws nothing: it dereferences the null
pointer that `tryGet` returned. -/
theorem get_missing_counterexample :
    sampleManager.mComponents 3 ⟨101⟩ = none ∧
    sampleManager.tryGet 3 ⟨101⟩ = none ∧
    sampleManager.get false 3 ⟨101⟩ = Outcome.undefinedBehaviour ∧
    (∀ e : Exception, sampleManager.get false 3 ⟨101⟩ ≠ Outcome.thrown e) := by
  have h1 : sampleManager.get false 3 ⟨101⟩ = Outcome.undefinedBehaviour := by decide
  refine ⟨by decide, by decide, h1, fun e he => ?_⟩
  rw [h1] at he
  cases he

/-- C19 (amended): for a structure key `s` and a component type `T` with no `T` component
attached to `s`, `tryGet<T>(s)` returns the null pointer, and in a build with `_DEBUG`
defined `get<T>(s)` throws `std::runtime_error` instead of returning a component. -/
theorem get_missing (m : StructureManager) (id : ComponentTypeID) (s : SKey)
    (h : m.mComponents id s = none) :
    m.tryGet id s = none ∧
    m.get true id s =
      Outcome.thrown (Exception.runtime_error
        "StructureManager::get() was called on a Structure without the requested component!") := by
  have ht := tryGet_of_absent m id s h
  refine ⟨ht, ?_⟩
  simp [StructureManager.get, ht]

/-- Witness of C19 (amended): the structure at address 101 has no component of type 3 in
`sampleManager`. -/
theorem get_missing_witness :
    sampleManager.tryGet 3 ⟨101⟩ = none ∧
    sampleManager.get true 3 ⟨101⟩ =
      Outcome.thrown (Exception.runtime_error
        "StructureManager::get() was called on a Structure without the requested component!") :=
  get_missing sampleManager 3 ⟨101⟩ (by decide)

/-- C20: for every key `s` and component type `T` with no entry for `s`, and every
component instance `c`, `attachComponent<T>(s, c)` returns normally, after it both
`tryGet<T>(s)` and `get<T>(s)` return `c` (in a build with or without `_DEBUG`), and the
result of `tryGet` for every other (key, component type) pair is the same as before. -/
theorem attach_then_get (debug : Bool) (m : StructureManager) (id : ComponentTypeID)
    (s : SKey) (c : StructureComponent) (h : m.mComponents id s = none) :
    (m.attachComponent debug id s (some c)).1 = Except.ok () ∧
    (m.attachComponent debug id s (some c)).2.tryGet id s = some c ∧
    (∀ debug1 : Bool,
      (m.attachComponent debug id s (some c)).2.get debug1 id s = Outcome.returned c) ∧
    (∀ (id1 : ComponentTypeID) (s1 : SKey), ¬ (id1 = id ∧ s1 = s) →
      (m.attachComponent debug id s (some c)).2.tryGet id1 s1 = m.tryGet id1 s1) := by
  rw [attachComponent_of_absent debug m id s (some c) h]
  have hget : (⟨Function.update m.mComponents id
      (Function.update (m.mComponents id) s (some (some c)))⟩ : StructureManager).tryGet id s =
        some c := by
    simp [StructureManager.tryGet]
  refine ⟨rfl, hget, ?_, ?_⟩
  · intro debug1
    simp [StructureManager.get, hget]
  · intro id1 s1 hne
    unfold StructureManager.tryGet
    by_cases hid : id1 = id
    · subst hid
      have hs : s1 ≠ s := fun hs => hne ⟨rfl, hs⟩
      simp [Function.update_same, Function.update_noteq hs]
    · simp [Function.update_noteq hid]

/-- Witness of C20: a component of type 4 is attached to the structure at address 100 of
`sampleManager`, which has a component of type 3 only. -/
theorem attach_then_get_witness :
    (sampleManager.attachComponent true 4 ⟨100⟩ (some ⟨9⟩)).1 = Except.ok () ∧
    (sampleManager.attachComponent true 4 ⟨100⟩ (some ⟨9⟩)).2.tryGet 4 ⟨100⟩ = some ⟨9⟩ ∧
    (sampleManager.attachComponent true 4 ⟨100⟩ (some ⟨9⟩)).2.get true 4 ⟨100⟩ =
      Outcome.returned ⟨9⟩ ∧
    (sampleManager.attachComponent true 4 ⟨100⟩ (some ⟨9⟩)).2.tryGet 3 ⟨100⟩ =
      sampleManager.tryGet 3 ⟨100⟩ :=
  ⟨(attach_then_get true sampleManager 4 ⟨100⟩ ⟨9⟩ (by decide)).1,
    (attach_then_get true sampleManager 4 ⟨100⟩ ⟨9⟩ (by decide)).2.1,
    (attach_then_get true sampleManager 4 ⟨100⟩ ⟨9⟩ (by decide)).2.2.1 true,
    (attach_then_get true sampleManager 4 ⟨100⟩ ⟨9⟩ (by decide)).2.2.2 3 ⟨100⟩ (by decide)⟩

/-! ## Theorems: ledger counters, pool consistency, mine facility frame -/

/-- Result of `Smelter::updateProduction` when the overflow test holds. -/
theorem smelter_updateProduction_of_gt (m : Int) (s : Structure)
    (h : ((s.storage.add (Smelter.converted m s)).sub
      ((s.storage.add (Smelter.converted m s)).cap
        (Int.tdiv Smelter.StorageCapacity 4))).gt StorableResources.zero = true) :
    Smelter.updateProduction m s =
      { s with
        mStructureState := StructureState.Idle
        mIdleReason := IdleReason.InternalStorageFull
        production := (convertLoop m Smelter.OreConversionDivisor s.production).2.add
          ((s.storage.add (Smelter.converted m s)).sub
            ((s.storage.add (Smelter.converted m s)).cap
              (Int.tdiv Smelter.StorageCapacity 4))) } := by
  unfold Smelter.converted at h
  simp only [Smelter.updateProduction, Smelter.converted, h]
  rfl

/-- The conversion loop leaves no negative counter in `converted` and `ore` when the ore
counters are non-negative, the minimum is positive and the divisors are non-negative. -/
theorem convertLoop_nonneg (m : Int) (d : Fin 4 → Int) (ore : StorableResources)
    (hm : 0 < m) (hd : ∀ j : Fin 4, 0 ≤ d j) (hore : ∀ j : Fin 4, 0 ≤ ore.resources j)
    (j : Fin 4) :
    0 ≤ (convertLoop m d ore).1.resources j ∧ 0 ≤ (convertLoop m d ore).2.resources j := by
  rw [convertLoop_converted, convertLoop_ore]
  have hj := hore j
  constructor
  · split_ifs
    · exact Int.tdiv_nonneg (le_of_lt hm) (hd j)
    · exact le_refl 0
  · split_ifs with h
    · omega
    · omega

/-- The overflow `total - total.cap(limit)` has no negative counter. -/
theorem sub_cap_nonneg (total : StorableResources) (limit : Int) (j : Fin 4) :
    0 ≤ (total.sub (total.cap limit)).resources j := by
  simp only [StorableResources.sub, StorableResources.cap]
  have := min_le_left (total.resources j) limit
  omega

/-- The capped total has no negative counter when the total and the limit have none. -/
theorem cap_nonneg (total : StorableResources) (limit : Int) (j : Fin 4)
    (ht : 0 ≤ total.resources j) (hl : 0 ≤ limit) : 0 ≤ (total.cap limit).resources j := by
  simp only [StorableResources.cap]
  exact le_min ht hl

/-- C22: for an ore-refining structure (refining base or Smelter) whose production and
storage counters are all non-negative, with a non-negative capacity and a positive minimum
batch, after `updateProduction` every counter of production and of storage is
non-negative, and the subtraction `total - capped` has no negative component. -/
theorem updateProduction_nonneg (m : Int) (s : Structure) (hm : 0 < m)
    (hcap : 0 ≤ s.storageCapacity)
    (hprod : ∀ j : Fin 4, 0 ≤ s.production.resources j)
    (hstor : ∀ j : Fin 4, 0 ≤ s.storage.resources j) (j : Fin 4) :
    0 ≤ (OreRefining.updateProduction m s).production.resources j ∧
    0 ≤ (OreRefining.updateProduction m s).storage.resources j ∧
    0 ≤ (OreRefining.overflow m s).resources j ∧
    0 ≤ (Smelter.updateProduction m s).production.resources j ∧
    0 ≤ (Smelter.updateProduction m s).storage.resources j ∧
    0 ≤ ((s.storage.add (Smelter.converted m s)).sub
      ((s.storage.add (Smelter.converted m s)).cap
        (Int.tdiv Smelter.StorageCapacity 4))).resources j := by
  have hdO : ∀ i : Fin 4, 0 ≤ OreRefining.OreConversionDivisor i := by
    intro i; fin_cases i <;> simp [OreRefining.OreConversionDivisor]
  have hdS : ∀ i : Fin 4, 0 ≤ Smelter.OreConversionDivisor i := by
    intro i; fin_cases i <;> simp [Smelter.OreConversionDivisor]
  have hO := convertLoop_nonneg m OreRefining.OreConversionDivisor s.production hm hdO hprod j
  have hS := convertLoop_nonneg m Smelter.OreConversionDivisor s.production hm hdS hprod j
  have hlimO : 0 ≤ OreRefining.IndividualMaterialCapacity s :=
    Int.tdiv_nonneg hcap (by decide)
  have htotO : 0 ≤ (s.storage.add (OreRefining.converted m s)).resources j := by
    show 0 ≤ s.storage.resources j +
      (convertLoop m OreRefining.OreConversionDivisor s.production).1.resources j
    have := hstor j
    omega
  have hcapO := cap_nonneg _ _ j htotO hlimO
  have hovO := sub_cap_nonneg (s.storage.add (OreRefining.converted m s))
    (OreRefining.IndividualMaterialCapacity s) j
  have hovS := sub_cap_nonneg (s.storage.add (Smelter.converted m s))
    (Int.tdiv Smelter.StorageCapacity 4) j
  have hsj := hstor j
  refine ⟨?_, ?_, hovO, ?_, ?_, hovS⟩
  · cases hgt : ((s.storage.add (OreRefining.converted m s)).sub
        ((s.storage.add (OreRefining.converted m s)).cap
          (OreRefining.IndividualMaterialCapacity s))).gt StorableResources.zero with
    | false =>
      rw [oreRefining_updateProduction_of_not_gt m s hgt]
      exact hO.2
    | true =>
      rw [oreRefining_updateProduction_of_gt m s hgt]
      show 0 ≤ (convertLoop m OreRefining.OreConversionDivisor s.production).2.resources j +
        ((s.storage.add (OreRefining.converted m s)).sub
          ((s.storage.add (OreRefining.converted m s)).cap
            (OreRefining.IndividualMaterialCapacity s))).resources j
      have := hO.2
      omega
  · cases hgt : ((s.storage.add (OreRefining.converted m s)).sub
        ((s.storage.add (OreRefining.converted m s)).cap
          (OreRefining.IndividualMaterialCapacity s))).gt StorableResources.zero with
    | false =>
      rw [oreRefining_updateProduction_of_not_gt m s hgt]
      show 0 ≤ s.storage.resources j + ((s.storage.add (OreRefining.converted m s)).cap
        (OreRefining.IndividualMaterialCapacity s)).resources j
      omega
    | true =>
      rw [oreRefining_updateProduction_of_gt m s hgt]
      show 0 ≤ s.storage.resources j + ((s.storage.add (OreRefining.converted m s)).cap
        (OreRefining.IndividualMaterialCapacity s)).resources j
      omega
  · cases hgt : ((s.storage.add (Smelter.converted m s)).sub
        ((s.storage.add (Smelter.converted m s)).cap
          (Int.tdiv Smelter.StorageCapacity 4))).gt StorableResources.zero with
    | false =>
      rw [smelter_updateProduction_of_not_gt m s hgt]
      exact hS.2
    | true =>
      rw [smelter_updateProduction_of_gt m s hgt]
      show 0 ≤ (convertLoop m Smelter.OreConversionDivisor s.production).2.resources j +
        ((s.storage.add (Smelter.converted m s)).sub
          ((s.storage.add (Smelter.converted m s)).cap
            (Int.tdiv Smelter.StorageCapacity 4))).resources j
      have := hS.2
      omega
  · cases hgt : ((s.storage.add (Smelter.converted m s)).sub
        ((s.storage.add (Smelter.converted m s)).cap
          (Int.tdiv Smelter.StorageCapacity 4))).gt StorableResources.zero with
    | false =>
      rw [smelter_updateProduction_of_not_gt m s hgt]
      exact hsj
    | true =>
      rw [smelter_updateProduction_of_gt m s hgt]
      exact hsj

/-- Witness of C22: material 0 of `nearlyFullRefinery`, whose overflow is returned to
production. -/
theorem updateProduction_nonneg_witness :
    0 ≤ (OreRefining.updateProduction 20 nearlyFullRefinery).production.resources 0 ∧
    0 ≤ (OreRefining.updateProduction 20 nearlyFullRefinery).storage.resources 0 ∧
    0 ≤ (OreRefining.overflow 20 nearlyFullRefinery).resources 0 ∧
    0 ≤ (Smelter.updateProduction 20 nearlyFullRefinery).production.resources 0 ∧
    0 ≤ (Smelter.updateProduction 20 nearlyFullRefinery).storage.resources 0 ∧
    0 ≤ ((nearlyFullRefinery.storage.add (Smelter.converted 20 nearlyFullRefinery)).sub
      ((nearlyFullRefinery.storage.add (Smelter.converted 20 nearlyFullRefinery)).cap
        (Int.tdiv Smelter.StorageCapacity 4))).resources 0 :=
  updateProduction_nonneg 20 nearlyFullRefinery (by decide) (by decide) (by decide)
    (by decide) 0

/-- C23, counterexample: `samplePool` satisfies the pool invariant and its counters are
non-negative (5 scientists, 2 employed as scientists and 1 as a worker). For the role
Scientist and the amount 3, `enoughPopulationAvailable` returns true, because
`populationAvailable` subtracts `scientistsUsed` only, as its contract says, and
`usePopulation` in the same state returns false, because it also subtracts
`scientistsAsWorkers`, as its contract says. The 32-bit arithmetic of the compiled code
gives the same two answers; and on `hugePool`, which satisfies the invariant as well, it
answers true to the check and false to the allocation of one Worker, because the sum
`workersAvailable + scientistsAvailable` leaves the range of `int`. -/
theorem enough_but_not_usable :
    samplePool.Invariant ∧
    0 ≤ samplePool.mScientistsUsed ∧ 0 ≤ samplePool.mWorkersUsed ∧
    0 ≤ samplePool.mScientistsAsWorkers ∧
    (samplePool.populationAvailable Role.Scientist).1 = Except.ok 3 ∧
    (samplePool.enoughPopulationAvailable Role.Scientist 3).1 = Except.ok true ∧
    (samplePool.usePopulation Role.Scientist 3).1 = Except.ok false ∧
    (samplePool.enoughPopulationAvailable32 Role.Scientist 3).1 = Except.ok true ∧
    (samplePool.usePopulation32 Role.Scientist 3).1 = Except.ok false ∧
    hugePool.Invariant ∧
    (hugePool.enoughPopulationAvailable32 Role.Worker 1).1 = Except.ok true ∧
    (hugePool.usePopulation32 Role.Worker 1).1 = Except.ok false := by
  decide

/-- C24: for every pool state and all amounts `a` and `b >= 0` (in particular from a
state that satisfies the pool invariant with non-negative counters, with `a >= 0`),
`usePopulation(Worker, a)` followed by `usePopulation(Worker, b)` both return true if and
only if a single `usePopulation(Worker, a + b)` returns true, and in that case the two
runs end with the same `workersUsed`, `scientistsAsWorkers` and `scientistsUsed`. -/
theorem usePopulation_worker_additive (p : PopulationPool) (a b : Int) (hb : 0 ≤ b) :
    (((p.usePopulation Role.Worker a).1 = Except.ok true ∧
        ((p.usePopulation Role.Worker a).2.usePopulation Role.Worker b).1 = Except.ok true) ↔
      (p.usePopulation Role.Worker (a + b)).1 = Except.ok true) ∧
    ((p.usePopulation Role.Worker (a + b)).1 = Except.ok true →
      ((p.usePopulation Role.Worker a).2.usePopulation Role.Worker b).2.mWorkersUsed =
        (p.usePopulation Role.Worker (a + b)).2.mWorkersUsed ∧
      ((p.usePopulation Role.Worker a).2.usePopulation Role.Worker b).2.mScientistsAsWorkers =
        (p.usePopulation Role.Worker (a + b)).2.mScientistsAsWorkers ∧
      ((p.usePopulation Role.Worker a).2.usePopulation Role.Worker b).2.mScientistsUsed =
        (p.usePopulation Role.Worker (a + b)).2.mScientistsUsed) := by
  rw [PopulationPool.usePopulation_worker_eq p (a + b),
    PopulationPool.usePopulation_worker_eq p a]
  by_cases h1 : a ≤ p.mPopulation.size Role.Worker - p.mWorkersUsed +
      (p.mPopulation.size Role.Scientist - (p.mScientistsAsWorkers + p.mScientistsUsed))
  · rw [if_pos h1]
    by_cases h2 : a ≤ p.mPopulation.size Role.Worker - p.mWorkersUsed
    · rw [if_pos h2, PopulationPool.usePopulation_worker_eq]
      simp only []
      split_ifs <;> simp <;> omega
    · rw [if_neg h2, PopulationPool.usePopulation_worker_eq]
      simp only []
      split_ifs <;> simp <;> omega
  · rw [if_neg h1]
    have h3 : ¬ a + b ≤ p.mPopulation.size Role.Worker - p.mWorkersUsed +
        (p.mPopulation.size Role.Scientist - (p.mScientistsAsWorkers + p.mScientistsUsed)) := by
      omega
    rw [if_neg h3]
    simp

/-- Witness of C24: from `samplePool` (3 idle workers, 2 idle scientists), 2 workers and
then 3 workers against 5 workers at once. -/
theorem usePopulation_worker_additive_witness :
    (samplePool.usePopulation Role.Worker (2 + 3)).1 = Except.ok true ∧
    ((samplePool.usePopulation Role.Worker 2).1 = Except.ok true ∧
      ((samplePool.usePopulation Role.Worker 2).2.usePopulation Role.Worker 3).1 =
        Except.ok true) ∧
    ((samplePool.usePopulation Role.Worker 2).2.usePopulation Role.Worker 3).2.mWorkersUsed =
      (samplePool.usePopulation Role.Worker (2 + 3)).2.mWorkersUsed ∧
    ((samplePool.usePopulation Role.Worker 2).2.usePopulation
        Role.Worker 3).2.mScientistsAsWorkers =
      (samplePool.usePopulation Role.Worker (2 + 3)).2.mScientistsAsWorkers ∧
    ((samplePool.usePopulation Role.Worker 2).2.usePopulation
        Role.Worker 3).2.mScientistsUsed =
      (samplePool.usePopulation Role.Worker (2 + 3)).2.mScientistsUsed :=
  ⟨by decide,
    (usePopulation_worker_additive samplePool 2 3 (by decide)).1.2 (by decide),
    (usePopulation_worker_additive samplePool 2 3 (by decide)).2 (by decide)⟩

/-- C25, the code at a failing input: `fullStorageFacility` is operational, not force-idle
and not in a dig extension, its mine is active and not exhausted, and its storage holds
one quarter of the capacity in every material. `think()` puts it into idle with the
reason `IDLE_MINE_EXHAUSTED`, and the mine's `exhausted()` is false before and after. -/
theorem think_exhausted_reason_on_full_storage :
    fullStorageFacility.forceIdle = false ∧
    fullStorageFacility.extending = false ∧
    fullStorageFacility.mStructureState = StructureState.Operational ∧
    fullStorageFacility.mMine.active = true ∧
    fullStorageFacility.mMine.exhausted = false ∧
    (MineFacility.think 10 Mine.pullAvailable fullStorageFacility).1.mStructureState =
      StructureState.Idle ∧
    (MineFacility.think 10 Mine.pullAvailable fullStorageFacility).1.mIdleReason =
      IdleReason.MineExhausted ∧
    (MineFacility.think 10 Mine.pullAvailable fullStorageFacility).1.mMine.exhausted =
      false := by
  decide

/-- C26: when `forceIdle()` is true, `think()` makes no request to `Mine::pull` and
returns the facility as it was: the production and storage ledgers, the structure state,
the idle reason, the mine with its depth and the dig-extension countdown are unchanged. -/
theorem think_forceIdle (rate : Int) (pull : Mine → OreType → Int → Int × Mine)
    (f : MineFacility) (h : f.forceIdle = true) :
    (MineFacility.think rate pull f).2 = [] ∧
    (MineFacility.think rate pull f).1 = f ∧
    (MineFacility.think rate pull f).1.production = f.production ∧
    (MineFacility.think rate pull f).1.storage = f.storage ∧
    (MineFacility.think rate pull f).1.mStructureState = f.mStructureState ∧
    (MineFacility.think rate pull f).1.mIdleReason = f.mIdleReason ∧
    (MineFacility.think rate pull f).1.mMine.depth = f.mMine.depth ∧
    (MineFacility.think rate pull f).1.digTimeRemaining = f.digTimeRemaining := by
  have hthink : MineFacility.think rate pull f = (f, []) := by
    unfold MineFacility.think
    rw [if_pos h]
  rw [hthink]
  exact ⟨rfl, rfl, rfl, rfl, rfl, rfl, rfl, rfl⟩

/-- Witness of C26: `forceIdleFacility` is force-idle with three dig turns remaining. -/
theorem think_forceIdle_witness :
    (MineFacility.think 10 Mine.pullAvailable forceIdleFacility).2 = [] ∧
    (MineFacility.think 10 Mine.pullAvailable forceIdleFacility).1 = forceIdleFacility :=
  ⟨(think_forceIdle 10 Mine.pullAvailable forceIdleFacility rfl).1,
    (think_forceIdle 10 Mine.pullAvailable forceIdleFacility rfl).2.1⟩

/-- C29: `canExtend()` is true exactly when the depth of the mine is below the maximum
depth and the dig countdown is zero, which for a countdown that is not negative is when no
dig extension is in progress (`extending()` false); `extend()` called when `canExtend()`
is false returns the facility as it was, in particular during an extension, where the
countdown is neither restarted nor lengthened. -/
theorem canExtend_extend (extensionTime : Int) (f : MineFacility) :
    (f.canExtend = true ↔ f.mMine.depth < f.mMaxDepth ∧ f.mDigTurnsRemaining = 0) ∧
    (0 ≤ f.mDigTurnsRemaining →
      (f.canExtend = true ↔ f.mMine.depth < f.mMaxDepth ∧ f.extending = false)) ∧
    (f.canExtend = false → MineFacility.extend extensionTime f = f) ∧
    (f.extending = true →
      f.canExtend = false ∧
      MineFacility.extend extensionTime f = f ∧
      (MineFacility.extend extensionTime f).digTimeRemaining = f.digTimeRemaining) := by
  have hcan : f.canExtend = true ↔ f.mMine.depth < f.mMaxDepth ∧ f.mDigTurnsRemaining = 0 := by
    simp [MineFacility.canExtend]
  have hno : f.canExtend = false → MineFacility.extend extensionTime f = f := by
    intro h
    simp [MineFacility.extend, h]
  refine ⟨hcan, ?_, hno, ?_⟩
  · intro h0
    rw [hcan]
    simp only [MineFacility.extending, decide_eq_false_iff_not, not_lt]
    constructor
    · rintro ⟨h1, h2⟩
      exact ⟨h1, by omega⟩
    · rintro ⟨h1, h2⟩
      exact ⟨h1, by omega⟩
  · intro hext
    have hpos : 0 < f.mDigTurnsRemaining := by
      simpa [MineFacility.extending] using hext
    have hfalse : f.canExtend = false := by
      rw [Bool.eq_false_iff]
      intro hc
      have := (hcan.mp hc).2
      omega
    exact ⟨hfalse, hno hfalse, by rw [hno hfalse]⟩

/-- Witness of C29: `extend()` with an extension time of 5 on a facility with three dig
turns remaining. -/
theorem canExtend_extend_witness :
    { sampleFacility with mDigTurnsRemaining := 3 }.canExtend = false ∧
    MineFacility.extend 5 { sampleFacility with mDigTurnsRemaining := 3 } =
      { sampleFacility with mDigTurnsRemaining := 3 } ∧
    (MineFacility.extend 5 { sampleFacility with mDigTurnsRemaining := 3 }).digTimeRemaining =
      ({ sampleFacility with mDigTurnsRemaining := 3 } : MineFacility).digTimeRemaining :=
  (canExtend_extend 5 { sampleFacility with mDigTurnsRemaining := 3 }).2.2.2 (by decide)

/-- The value of `push_count`. -/
theorem push_count_eq_min (rate : Int) (f : MineFacility) :
    MineFacility.push_count rate f = min rate f.production.remainingCapacity := by
  unfold MineFacility.push_count
  split_ifs with h
  · exact (min_eq_left h).symm
  · exact (min_eq_right (le_of_lt (not_le.mp h))).symm

/-- The requests of one guarded pull statement: those made before, followed by at most one
new request, whose quantity is `push_count` of the facility at that point. -/
theorem pullOre_requests (rate : Int) (pull : Mine → OreType → Int → Int × Mine)
    (resource : ResourceType) (ore : OreType) (acc : MineFacility × List (OreType × Int)) :
    (MineFacility.pullOre rate pull resource ore acc).2 =
      acc.2 ++ [(ore, min rate acc.1.production.remainingCapacity)] := by
  unfold MineFacility.pullOre
  simp only [push_count_eq_min]

/-- Every request of the four pull statements asks for at most the rate. -/
theorem pullOres_requests_le (rate : Int) (pull : Mine → OreType → Int → Int × Mine)
    (f : MineFacility) (r : OreType × Int) (hr : r ∈ (MineFacility.pullOres rate pull f).2) :
    r.2 ≤ rate := by
  have hstep : ∀ (resource : ResourceType) (ore : OreType)
      (acc : MineFacility × List (OreType × Int)),
      (∀ q ∈ acc.2, q.2 ≤ rate) →
      ∀ q ∈ (MineFacility.pullOre rate pull resource ore acc).2, q.2 ≤ rate := by
    intro resource ore acc hacc q hq
    rw [pullOre_requests, List.mem_append, List.mem_singleton] at hq
    rcases hq with hq | hq
    · exact hacc q hq
    · rw [hq]
      exact min_le_left _ _
  have hguard : ∀ (c : Bool) (resource : ResourceType) (ore : OreType)
      (acc : MineFacility × List (OreType × Int)),
      (∀ q ∈ acc.2, q.2 ≤ rate) →
      ∀ q ∈ (if c then MineFacility.pullOre rate pull resource ore acc else acc).2,
        q.2 ≤ rate := by
    intro c resource ore acc hacc
    cases c
    · simpa using hacc
    · simpa using hstep resource ore acc hacc
  have h0 : ∀ q ∈ ((f, []) : MineFacility × List (OreType × Int)).2, q.2 ≤ rate := by
    intro q hq
    simp at hq
  unfold MineFacility.pullOres at hr
  exact hguard _ _ _ _ (hguard _ _ _ _ (hguard _ _ _ _ (hguard _ _ _ _ h0))) r hr

/-- The facility after one pull statement does not depend on the requests logged so far:
its mine is the mine after the pull of `push_count` units, and its production ledger has
received what that pull returned. -/
theorem pullOre_facility (rate : Int) (pull : Mine → OreType → Int → Int × Mine)
    (resource : ResourceType) (ore : OreType) (acc : MineFacility × List (OreType × Int)) :
    (MineFacility.pullOre rate pull resource ore acc).1 =
      { acc.1 with
        mMine := (pull acc.1.mMine ore (min rate acc.1.production.remainingCapacity)).2
        production := acc.1.production.pushResource resource
          (pull acc.1.mMine ore (min rate acc.1.production.remainingCapacity)).1 } := by
  unfold MineFacility.pullOre
  simp only [push_count_eq_min]

/-- A push of `amount` units lowers the remaining capacity of the ledger by `amount`. -/
theorem pushResource_remainingCapacity (p : ResourcePool) (type : ResourceType)
    (amount : Int) :
    (p.pushResource type amount).remainingCapacity = p.remainingCapacity - amount := by
  cases type <;> simp only [ResourcePool.pushResource, ResourcePool.remainingCapacity] <;> omega

/-- C30: `push_count` is `min(BASE_MINE_PRODUCTION_RATE, remaining capacity of the
production ledger)`, so it exceeds neither the rate nor what the production ledger can
still hold. The requests `think()` makes to `Mine::pull` are those of its four pull
statements on the re-enabled facility, whose production ledger is that of the facility
`think()` was called on, when it reaches them, and none otherwise. The four statements
request, in the order common metals, common minerals, rare metals, rare minerals and each
only if the mine is mining that ore type at that point, the minimum of the rate and of the
remaining capacity of the production ledger as it is when the statement runs: `g1`, `g2`
and `g3` are the facility after the first, second and third statement, whose mine is the
mine after the pull and whose ledger has received what the pull returned (so that its
remaining capacity has dropped by the amount pulled). Every request `think()` makes asks
for at most the rate. -/
theorem pull_requests (rate : Int) (pull : Mine → OreType → Int → Int × Mine)
    (f : MineFacility) :
    MineFacility.push_count rate f = min rate f.production.remainingCapacity ∧
    MineFacility.push_count rate f ≤ rate ∧
    MineFacility.push_count rate f ≤ f.production.remainingCapacity ∧
    (∀ (resource : ResourceType) (ore : OreType) (acc : MineFacility × List (OreType × Int)),
      (MineFacility.pullOre rate pull resource ore acc).2 =
        acc.2 ++ [(ore, min rate acc.1.production.remainingCapacity)] ∧
      (MineFacility.pullOre rate pull resource ore acc).1.mMine =
        (pull acc.1.mMine ore (min rate acc.1.production.remainingCapacity)).2 ∧
      (MineFacility.pullOre rate pull resource ore acc).1.production =
        acc.1.production.pushResource resource
          (pull acc.1.mMine ore (min rate acc.1.production.remainingCapacity)).1 ∧
      (MineFacility.pullOre rate pull resource ore acc).1.production.remainingCapacity =
        acc.1.production.remainingCapacity -
          (pull acc.1.mMine ore (min rate acc.1.production.remainingCapacity)).1) ∧
    (∀ g : MineFacility,
      (MineFacility.pullOres rate pull g).2 =
        let g1 :=
          if g.mMine.miningCommonMetals then
            (MineFacility.pullOre rate pull ResourceType.CommonMetalsOre
              OreType.ORE_COMMON_METALS (g, [])).1
          else g
        let g2 :=
          if g1.mMine.miningCommonMinerals then
            (MineFacility.pullOre rate pull ResourceType.CommonMineralsOre
              OreType.ORE_COMMON_MINERALS (g1, [])).1
          else g1
        let g3 :=
          if g2.mMine.miningRareMetals then
            (MineFacility.pullOre rate pull ResourceType.RareMetalsOre
              OreType.ORE_RARE_METALS (g2, [])).1
          else g2
        (if g.mMine.miningCommonMetals then
            [(OreType.ORE_COMMON_METALS, min rate g.production.remainingCapacity)]
          else []) ++
        (if g1.mMine.miningCommonMinerals then
            [(OreType.ORE_COMMON_MINERALS, min rate g1.production.remainingCapacity)]
          else []) ++
        (if g2.mMine.miningRareMetals then
            [(OreType.ORE_RARE_METALS, min rate g2.production.remainingCapacity)]
          else []) ++
        (if g3.mMine.miningRareMinerals then
            [(OreType.ORE_RARE_MINERALS, min rate g3.production.remainingCapacity)]
          else [])) ∧
    (MineFacility.think rate pull f).2 =
      (if f.forceIdle = false ∧ ¬ f.mDigTurnsRemaining > 0 ∧
          (MineFacility.reenable f).mMine.exhausted = false ∧
          (MineFacility.reenable f).mMine.active = true ∧
          (MineFacility.reenable f).storage.ge
            (StorableResources.ofLimit (Int.tdiv MineFacilityStorageCapacity 4)) = false then
        (MineFacility.pullOres rate pull (MineFacility.reenable f)).2
      else []) ∧
    (MineFacility.reenable f).production = f.production ∧
    (MineFacility.reenable f).mMine = f.mMine ∧
    (∀ r ∈ (MineFacility.think rate pull f).2, r.2 ≤ rate) := by
  refine ⟨push_count_eq_min rate f, ?_, ?_, ?_, ?_, ?_, ?_, ?_, ?_⟩
  · rw [push_count_eq_min]; exact min_le_left _ _
  · rw [push_count_eq_min]; exact min_le_right _ _
  · intro resource ore acc
    refine ⟨pullOre_requests rate pull resource ore acc, ?_, ?_, ?_⟩
    · rw [pullOre_facility]
    · rw [pullOre_facility]
    · rw [pullOre_facility]
      exact pushResource_remainingCapacity _ _ _
  · intro g
    simp only [MineFacility.pullOres]
    split_ifs <;> simp_all [pullOre_requests, pullOre_facility]
  · unfold MineFacility.think
    dsimp only
    split_ifs <;> simp_all
  · unfold MineFacility.reenable
    split_ifs <;> rfl
  · unfold MineFacility.reenable
    split_ifs <;> rfl
  · intro r hr
    unfold MineFacility.think at hr
    dsimp only at hr
    split_ifs at hr
    all_goals first
      | exact absurd hr (List.not_mem_nil r)
      | exact pullOres_requests_le rate pull _ r hr

/-- Witness of C30: the request for common minerals that `think()` makes on
`nearlyFullProductionFacility` with a rate of 10 asks for the 5 units the production
ledger can still hold after the 10 units of common metals. -/
theorem pull_requests_witness :
    (OreType.ORE_COMMON_MINERALS, (5 : Int)) ∈
      (MineFacility.think 10 Mine.pullAvailable nearlyFullProductionFacility).2 ∧
    ((OreType.ORE_COMMON_MINERALS, (5 : Int)) : OreType × Int).2 ≤ 10 :=
  ⟨by decide,
    (pull_requests 10 Mine.pullAvailable nearlyFullProductionFacility).2.2.2.2.2.2.2.2
      (OreType.ORE_COMMON_MINERALS, 5) (by decide)⟩

/-- The requests of `think()` on `nearlyFullProductionFacility`, whose production ledger
has room for 15 units, with a rate of 10: 10, then the 5 that are left, then 0 and 0. -/
theorem pull_requests_recomputed :
    (MineFacility.think 10 Mine.pullAvailable nearlyFullProductionFacility).2 =
      [(OreType.ORE_COMMON_METALS, 10), (OreType.ORE_COMMON_MINERALS, 5),
        (OreType.ORE_RARE_METALS, 0), (OreType.ORE_RARE_MINERALS, 0)] := by
  decide

/-! ## Theorems: tube placement -/

/-- C21: `insertTube(dir, depth, tile)` throws if and only if `dir` is
`CONNECTOR_VERTICAL`, and then the table of registered structures is as it was; for every
other direction it returns normally and exactly one structure has been registered, last in
the table: a Tube with that direction, underground iff `depth != 0`, on the given tile. -/
theorem insertTube_spec (table : StructureTileTable) (dir : ConnectorDir) (depth : Int)
    (tile : Tile) :
    ((∃ e : Exception, (insertTube table dir depth tile).1 = Except.error e) ↔
      dir = ConnectorDir.CONNECTOR_VERTICAL) ∧
    (dir = ConnectorDir.CONNECTOR_VERTICAL →
      (insertTube table dir depth tile).1 =
        Except.error (Exception.runtime_error
          "MapViewState::insertTube() called with invalid ConnectorDir paramter.") ∧
      (insertTube table dir depth tile).2 = table) ∧
    (dir ≠ ConnectorDir.CONNECTOR_VERTICAL →
      (insertTube table dir depth tile).1 = Except.ok () ∧
      (insertTube table dir depth tile).2 = table ++ [(⟨dir, decide (depth ≠ 0)⟩, tile)] ∧
      (insertTube table dir depth tile).2.length = table.length + 1) := by
  by_cases h : dir = ConnectorDir.CONNECTOR_VERTICAL
  · simp [insertTube, h]
  · simp [insertTube, h, addStructure]

/-- Witness of C21: a tube to the right is placed one level below the surface. -/
theorem insertTube_spec_witness :
    (insertTube [] ConnectorDir.CONNECTOR_RIGHT 1 ⟨⟨3, 3⟩, 1⟩).1 = Except.ok () ∧
    (insertTube [] ConnectorDir.CONNECTOR_RIGHT 1 ⟨⟨3, 3⟩, 1⟩).2 =
      [] ++ [(⟨ConnectorDir.CONNECTOR_RIGHT, decide ((1 : Int) ≠ 0)⟩, ⟨⟨3, 3⟩, 1⟩)] ∧
    (insertTube [] ConnectorDir.CONNECTOR_RIGHT 1 ⟨⟨3, 3⟩, 1⟩).2.length =
      ([] : StructureTileTable).length + 1 :=
  (insertTube_spec [] ConnectorDir.CONNECTOR_RIGHT 1 ⟨⟨3, 3⟩, 1⟩).2.2 (by decide)

/-- C27, the code at a failing input: the tube start is the tile (3, 3). When the mouse is
released on the same tile with the intersection connector, or on the tile (3, 7) with the
right connector, `placeTubeEnd` reaches the computation of the tube direction with
`tubeLength` zero and divides by it. -/
theorem placeTubeEnd_zero_length :
    tubeEndOffset ConnectorDir.CONNECTOR_INTERSECTION ((⟨3, 3⟩ : Point).sub ⟨3, 3⟩) =
      some ⟨0, 0⟩ ∧
    tubeLength ⟨0, 0⟩ = 0 ∧
    placeTubeEnd openGround 10 true (some ⟨3, 3⟩) ConnectorDir.CONNECTOR_INTERSECTION
      ⟨3, 3⟩ [] = PlaceTubeResult.divisionByZero ∧
    tubeEndOffset ConnectorDir.CONNECTOR_RIGHT ((⟨3, 7⟩ : Point).sub ⟨3, 3⟩) = some ⟨0, 0⟩ ∧
    placeTubeEnd openGround 10 true (some ⟨3, 7⟩) ConnectorDir.CONNECTOR_RIGHT
      ⟨3, 3⟩ [] = PlaceTubeResult.divisionByZero := by
  refine ⟨by decide, by decide, rfl, by decide, rfl⟩

/-- The snapped offset lies on an axis. -/
theorem tubeEndOffset_axis (cd : ConnectorDir) (v offset : Point)
    (h : tubeEndOffset cd v = some offset) : offset.y = 0 ∨ offset.x = 0 := by
  unfold tubeEndOffset at h
  cases cd with
  | CONNECTOR_INTERSECTION =>
    simp only at h
    split_ifs at h
    · left; rw [← Option.some.inj h]
    · right; rw [← Option.some.inj h]
  | CONNECTOR_RIGHT =>
    simp only at h
    left; rw [← Option.some.inj h]
  | CONNECTOR_LEFT =>
    simp only at h
    right; rw [← Option.some.inj h]
  | CONNECTOR_VERTICAL => simp at h

/-- For a non-zero `x`, `x / abs(x)` is 1 or -1, and it gives `x` back when multiplied
by `abs(x)`. -/
theorem tdiv_abs (x : Int) (hx : 0 < abs x) :
    (Int.tdiv x (abs x) = 1 ∨ Int.tdiv x (abs x) = -1) ∧ Int.tdiv x (abs x) * abs x = x := by
  unfold abs at hx ⊢
  split_ifs at hx ⊢ with hneg
  · have hne : x ≠ 0 := by omega
    rw [Int.tdiv_neg, Int.tdiv_self hne]
    exact ⟨Or.inr rfl, by omega⟩
  · have hne : x ≠ 0 := by omega
    rw [Int.tdiv_self hne]
    exact ⟨Or.inl rfl, by omega⟩

/-- The tube direction of an axis-aligned offset of positive length is a unit vector along
the axis of the offset, and `tubeLength` steps of it make the offset. -/
theorem tubeDirection_unit (offset : Point) (haxis : offset.y = 0 ∨ offset.x = 0)
    (hlen : 0 < tubeLength offset) :
    ((offset.x ≠ 0 ∧ offset.y = 0 ∧
        (tubeDirection offset = ⟨1, 0⟩ ∨ tubeDirection offset = ⟨-1, 0⟩)) ∨
      (offset.x = 0 ∧ offset.y ≠ 0 ∧
        (tubeDirection offset = ⟨0, 1⟩ ∨ tubeDirection offset = ⟨0, -1⟩))) ∧
    (tubeDirection offset).x * tubeLength offset = offset.x ∧
    (tubeDirection offset).y * tubeLength offset = offset.y := by
  rcases haxis with hy | hx
  · have hL : tubeLength offset = abs offset.x := by
      unfold tubeLength; rw [hy, add_zero]
    rw [hL] at hlen
    have hd := tdiv_abs offset.x hlen
    have hne : offset.x ≠ 0 := by
      intro h0; rw [h0] at hlen; exact absurd hlen (by decide)
    have hdir : tubeDirection offset = ⟨Int.tdiv offset.x (abs offset.x), 0⟩ := by
      unfold tubeDirection; rw [hL, hy, Int.zero_tdiv]
    rw [hdir, hL]
    refine ⟨Or.inl ⟨hne, hy, ?_⟩, hd.2, by rw [hy]; exact Int.zero_mul _⟩
    rcases hd.1 with h1 | h1
    · left; rw [h1]
    · right; rw [h1]
  · have hL : tubeLength offset = abs offset.y := by
      unfold tubeLength; rw [hx, zero_add]
    rw [hL] at hlen
    have hd := tdiv_abs offset.y hlen
    have hne : offset.y ≠ 0 := by
      intro h0; rw [h0] at hlen; exact absurd hlen (by decide)
    have hdir : tubeDirection offset = ⟨0, Int.tdiv offset.y (abs offset.y)⟩ := by
      unfold tubeDirection; rw [hL, hx, Int.zero_tdiv]
    rw [hdir, hL]
    refine ⟨Or.inr ⟨hx, hne, ?_⟩, by rw [hx]; exact Int.zero_mul _, hd.2⟩
    rcases hd.1 with h1 | h1
    · left; rw [h1]
    · right; rw [h1]

/-- The loop of `placeTubeEnd` ends within `r + 1` iterations when it is `r` steps of
`direction` away from `tubeEnd`, and all the positions it runs at are steps of `direction`
from the start, up to `tubeEnd`. -/
theorem placeTubeLoop_bound {W : Type} (env : TubeWorld W) (cd : ConnectorDir)
    (start tubeEnd d : Point) (n : Nat)
    (hend : tubeEnd = ⟨start.x + (n : Int) * d.x, start.y + (n : Int) * d.y⟩) :
    ∀ (r i fuel : Nat) (st : TubeLoop W), i + r = n → r + 1 ≤ fuel →
      st.position = ⟨start.x + (i : Int) * d.x, start.y + (i : Int) * d.y⟩ →
      st.visited.length = i →
      (∀ p ∈ st.visited, ∃ k : Nat, k ≤ n ∧
        p = ⟨start.x + (k : Int) * d.x, start.y + (k : Int) * d.y⟩) →
      ∃ st1 : TubeLoop W, placeTubeLoop env cd start tubeEnd d fuel st = some st1 ∧
        st1.endReach = true ∧
        1 ≤ st1.visited.length ∧ st1.visited.length ≤ n + 1 ∧
        (∀ p ∈ st1.visited, ∃ k : Nat, k ≤ n ∧
          p = ⟨start.x + (k : Int) * d.x, start.y + (k : Int) * d.y⟩) := by
  intro r
  induction r with
  | zero =>
    intro i fuel st hi hfuel hpos hlen hvis
    obtain ⟨f, rfl⟩ : ∃ f, fuel = f + 1 := ⟨fuel - 1, by omega⟩
    have hin : i = n := by omega
    have hatEnd : st.position = tubeEnd := by rw [hpos, hend, hin]
    have hreach : (placeTubeBody env cd start tubeEnd d st).endReach = true := by
      simp [placeTubeBody, hatEnd]
    refine ⟨placeTubeBody env cd start tubeEnd d st, ?_, hreach, ?_, ?_, ?_⟩
    · simp only [placeTubeLoop, hreach, if_true]
    · simp [placeTubeBody]
    · simp [placeTubeBody, hlen, hin]
    · intro p hp
      simp only [placeTubeBody, List.mem_append, List.mem_singleton] at hp
      rcases hp with hp | hp
      · exact hvis p hp
      · exact ⟨i, by omega, by rw [hp, hpos]⟩
  | succ r ih =>
    intro i fuel st hi hfuel hpos hlen hvis
    obtain ⟨f, rfl⟩ : ∃ f, fuel = f + 1 := ⟨fuel - 1, by omega⟩
    have hvis1 : ∀ p ∈ (placeTubeBody env cd start tubeEnd d st).visited, ∃ k : Nat, k ≤ n ∧
        p = ⟨start.x + (k : Int) * d.x, start.y + (k : Int) * d.y⟩ := by
      intro p hp
      simp only [placeTubeBody, List.mem_append, List.mem_singleton] at hp
      rcases hp with hp | hp
      · exact hvis p hp
      · exact ⟨i, by omega, by rw [hp, hpos]⟩
    have hlen1 : (placeTubeBody env cd start tubeEnd d st).visited.length = i + 1 := by
      simp [placeTubeBody, hlen]
    cases hreach : (placeTubeBody env cd start tubeEnd d st).endReach with
    | true =>
      refine ⟨placeTubeBody env cd start tubeEnd d st, ?_, hreach, ?_, ?_, hvis1⟩
      · simp only [placeTubeLoop, hreach, if_true]
      · omega
      · omega
    | false =>
      have hpos1 : (placeTubeBody env cd start tubeEnd d st).position =
          ⟨start.x + ((i + 1 : Nat) : Int) * d.x, start.y + ((i + 1 : Nat) : Int) * d.y⟩ := by
        simp only [placeTubeBody, Point.add, hpos, Point.mk.injEq]
        constructor <;> (push_cast; ring)
      obtain ⟨st1, h1, h2, h3, h4, h5⟩ := ih (i + 1) f
        (placeTubeBody env cd start tubeEnd d st) (by omega) (by omega) hpos1 hlen1 hvis1
      refine ⟨st1, ?_, h2, h3, h4, h5⟩
      simp only [placeTubeLoop, hreach, Bool.false_eq_true, if_false]
      exact h1

/-- C28: when `placeTubeEnd` has snapped the drag from `start` to the hovered tile to an
offset with `tubeLength > 0`, the offset has exactly one non-zero coordinate, the step
`tubeDirection` is a unit vector along that axis and `tubeLength` steps make the offset,
and the `do ... while` loop ends: with room for `tubeLength + 1` iterations or more the
call ends with `endReach` set, after at least one and at most `tubeLength + 1` iterations,
each of them at a position `start + k * tubeDirection` with `0 <= k <= tubeLength`, a
tile of the segment from the start tile to `start + offset`. -/
theorem placeTubeEnd_loop_terminates {W : Type} (env : TubeWorld W) (cd : ConnectorDir)
    (start hover offset : Point) (world : W)
    (hoff : tubeEndOffset cd (hover.sub start) = some offset)
    (hlen : 0 < tubeLength offset) :
    ((offset.x ≠ 0 ∧ offset.y = 0 ∧
        (tubeDirection offset = ⟨1, 0⟩ ∨ tubeDirection offset = ⟨-1, 0⟩)) ∨
      (offset.x = 0 ∧ offset.y ≠ 0 ∧
        (tubeDirection offset = ⟨0, 1⟩ ∨ tubeDirection offset = ⟨0, -1⟩))) ∧
    (tubeDirection offset).x * tubeLength offset = offset.x ∧
    (tubeDirection offset).y * tubeLength offset = offset.y ∧
    (∀ fuel : Nat, tubeLength offset + 1 ≤ (fuel : Int) →
      ∃ st : TubeLoop W,
        placeTubeEnd env fuel true (some hover) cd start world = PlaceTubeResult.placed st ∧
        st.endReach = true ∧
        1 ≤ st.visited.length ∧
        (st.visited.length : Int) ≤ tubeLength offset + 1 ∧
        (∀ p ∈ st.visited, ∃ k : Nat, (k : Int) ≤ tubeLength offset ∧
          p = ⟨start.x + (k : Int) * (tubeDirection offset).x,
            start.y + (k : Int) * (tubeDirection offset).y⟩)) := by
  have hunit := tubeDirection_unit offset (tubeEndOffset_axis cd _ offset hoff) hlen
  refine ⟨hunit.1, hunit.2.1, hunit.2.2, ?_⟩
  intro fuel hfuel
  obtain ⟨n, hn⟩ : ∃ n : Nat, tubeLength offset = (n : Int) :=
    ⟨(tubeLength offset).toNat, (Int.toNat_of_nonneg (le_of_lt hlen)).symm⟩
  have hend : start.add offset =
      ⟨start.x + (n : Int) * (tubeDirection offset).x,
        start.y + (n : Int) * (tubeDirection offset).y⟩ := by
    simp only [Point.add, Point.mk.injEq]
    rw [← hn]
    constructor
    · rw [mul_comm, hunit.2.1]
    · rw [mul_comm, hunit.2.2]
  obtain ⟨st, h1, h2, h3, h4, h5⟩ :=
    placeTubeLoop_bound env cd start (start.add offset) (tubeDirection offset) n hend
      n 0 fuel ⟨world, start, false, []⟩ (by omega) (by omega)
      (by simp) rfl (by intro p hp; simp at hp)
  refine ⟨st, ?_, h2, h3, ?_, ?_⟩
  · have hne : ¬ tubeLength offset = 0 := by omega
    simp only [placeTubeEnd, Bool.not_true, Bool.false_eq_true, if_false, hoff, hne, h1]
  · rw [hn]
    exact_mod_cast h4
  · intro p hp
    obtain ⟨k, hk, hpk⟩ := h5 p hp
    exact ⟨k, by rw [hn]; exact_mod_cast hk, hpk⟩

/-- Witness of C28: on open ground, a drag from the tile (3, 3) to the tile (6, 4) with
the intersection connector is snapped to the offset (3, 0), of length 3. -/
theorem placeTubeEnd_loop_terminates_witness :
    tubeEndOffset ConnectorDir.CONNECTOR_INTERSECTION ((⟨6, 4⟩ : Point).sub ⟨3, 3⟩) =
      some ⟨3, 0⟩ ∧
    0 < tubeLength ⟨3, 0⟩ ∧
    (tubeDirection ⟨3, 0⟩).x * tubeLength ⟨3, 0⟩ = (⟨3, 0⟩ : Point).x ∧
    (∃ st : TubeLoop (List (ConnectorDir × Point)),
      placeTubeEnd openGround 4 true (some ⟨6, 4⟩) ConnectorDir.CONNECTOR_INTERSECTION
        ⟨3, 3⟩ [] = PlaceTubeResult.placed st ∧
      st.endReach = true ∧
      1 ≤ st.visited.length ∧
      (st.visited.length : Int) ≤ tubeLength ⟨3, 0⟩ + 1 ∧
      (∀ p ∈ st.visited, ∃ k : Nat, (k : Int) ≤ tubeLength ⟨3, 0⟩ ∧
        p = ⟨(⟨3, 3⟩ : Point).x + (k : Int) * (tubeDirection ⟨3, 0⟩).x,
          (⟨3, 3⟩ : Point).y + (k : Int) * (tubeDirection ⟨3, 0⟩).y⟩)) :=
  ⟨by decide, by decide,
    (placeTubeEnd_loop_terminates openGround ConnectorDir.CONNECTOR_INTERSECTION
      ⟨3, 3⟩ ⟨6, 4⟩ ⟨3, 0⟩ [] (by decide) (by decide)).2.1,
    (placeTubeEnd_loop_terminates openGround ConnectorDir.CONNECTOR_INTERSECTION
      ⟨3, 3⟩ ⟨6, 4⟩ ⟨3, 0⟩ [] (by decide) (by decide)).2.2.2 4 (by decide)⟩

/-- The run of the witness of C28 on `openGround`: two iterations. The first places a tube
on the start tile (3, 3); the second, at (4, 3), looks up the tile at `mTubeStart` again,
finds the tube on it and ends the loop. -/
theorem placeTubeEnd_sample_run :
    placeTubeEnd openGround 4 true (some ⟨6, 4⟩) ConnectorDir.CONNECTOR_INTERSECTION
        ⟨3, 3⟩ [] =
      PlaceTubeResult.placed
        ⟨[(ConnectorDir.CONNECTOR_INTERSECTION, ⟨3, 3⟩)], ⟨5, 3⟩, true, [⟨3, 3⟩, ⟨4, 3⟩]⟩ := by
  rfl

/-! ## Theorems: population pool on the machine type `int` -/

/-- A value in the range of `int` is what the 32-bit operation yields. -/
theorem wrapInt_of_fits (x : Int) (h : fitsInt x) : wrapInt x = x := by
  unfold fitsInt INT_MIN INT_MAX at h
  unfold wrapInt
  omega

/-- On a Worker request without overflow the 32-bit `usePopulation` computes what the
arithmetic on mathematical integers gives. -/
theorem usePopulation32_worker_eq (p : PopulationPool) (a : Int)
    (h : p.workerNoOverflow a) :
    p.usePopulation32 Role.Worker a = p.usePopulation Role.Worker a := by
  obtain ⟨h1, h2, h3, h4, h5⟩ := h
  rw [PopulationPool.usePopulation_worker_eq]
  simp only [PopulationPool.usePopulation32, PopulationPool.BasicCheck_worker, reduceCtorEq,
    if_false, if_true, wrapInt_of_fits _ h1, wrapInt_of_fits _ h2, wrapInt_of_fits _ h3,
    wrapInt_of_fits _ h4]
  by_cases hg : a ≤ p.mPopulation.size Role.Worker - p.mWorkersUsed +
      (p.mPopulation.size Role.Scientist - (p.mScientistsAsWorkers + p.mScientistsUsed))
  · rw [if_pos hg, if_pos hg]
    by_cases hw : a ≤ p.mPopulation.size Role.Worker - p.mWorkersUsed
    · rw [if_pos hw, if_pos hw, wrapInt_of_fits _ ((h5 hg).1 hw)]
    · obtain ⟨k1, k2, k3, k4⟩ := (h5 hg).2 hw
      rw [if_neg hw, if_neg hw]
      simp only [wrapInt_of_fits _ k1, wrapInt_of_fits _ k2, wrapInt_of_fits _ k3,
        wrapInt_of_fits _ k4]
  · rw [if_neg hg, if_neg hg]

/-- On a Scientist request without overflow the 32-bit `usePopulation` computes what the
arithmetic on mathematical integers gives. -/
theorem usePopulation32_scientist_eq (p : PopulationPool) (a : Int)
    (h : p.scientistNoOverflow a) :
    p.usePopulation32 Role.Scientist a = p.usePopulation Role.Scientist a := by
  obtain ⟨h1, h2, _, h4⟩ := h
  rw [PopulationPool.usePopulation_scientist_eq]
  simp only [PopulationPool.usePopulation32, PopulationPool.BasicCheck_scientist, if_true,
    wrapInt_of_fits _ h1, wrapInt_of_fits _ h2]
  by_cases hg : a ≤ p.mPopulation.size Role.Scientist -
      (p.mScientistsAsWorkers + p.mScientistsUsed)
  · rw [if_pos hg, if_pos hg, wrapInt_of_fits _ (h4 hg)]
  · rw [if_neg hg, if_neg hg]

/-- A Worker request on 32-bit `int` never assigns `mScientistsUsed`. -/
theorem usePopulation32_worker_scientistsUsed (p : PopulationPool) (a : Int) :
    (p.usePopulation32 Role.Worker a).2.mScientistsUsed = p.mScientistsUsed := by
  simp only [PopulationPool.usePopulation32, PopulationPool.BasicCheck_worker, reduceCtorEq,
    if_false, if_true]
  split_ifs <;> rfl

/-- C2, counterexample: `hugePool` has 2,000,000,000 idle workers and as many idle
scientists, so the amount 2,100,000,000 exceeds `workersAvailable` and is at most
`workersAvailable + scientistsAvailable`. On a 32-bit `int` that sum is -294,967,296, and
`usePopulation(Worker, 2100000000)` returns false and leaves the counters as they were. -/
theorem usePopulation_worker_shortfall_counterexample :
    hugePool.mPopulation.size Role.Worker - hugePool.mWorkersUsed < 2100000000 ∧
    (2100000000 : Int) ≤ (hugePool.mPopulation.size Role.Worker - hugePool.mWorkersUsed) +
      (hugePool.mPopulation.size Role.Scientist - hugePool.mScientistsUsed -
        hugePool.mScientistsAsWorkers) ∧
    wrapInt ((hugePool.mPopulation.size Role.Worker - hugePool.mWorkersUsed) +
      (hugePool.mPopulation.size Role.Scientist - hugePool.mScientistsUsed -
        hugePool.mScientistsAsWorkers)) = -294967296 ∧
    (hugePool.usePopulation32 Role.Worker 2100000000).1 = Except.ok false ∧
    (hugePool.usePopulation32 Role.Worker 2100000000).2.mWorkersUsed =
      hugePool.mWorkersUsed ∧
    (hugePool.usePopulation32 Role.Worker 2100000000).2.mScientistsAsWorkers =
      hugePool.mScientistsAsWorkers := by
  decide

/-- C2 (amended): for every pool state and amount `a` with `workersAvailable < a <=
workersAvailable + scientistsAvailable` for which no intermediate result of the call
leaves the range of `int` (in particular `workersAvailable + scientistsAvailable <=
INT_MAX`), `usePopulation(Worker, a)` as compiled for a 32-bit `int` returns true,
`workersUsed` increases by `workersAvailable`, `scientistsAsWorkers` increases by
`a - workersAvailable`, and the two increases sum to `a`. -/
theorem usePopulation32_worker_shortfall (p : PopulationPool) (a : Int)
    (hlt : p.mPopulation.size Role.Worker - p.mWorkersUsed < a)
    (hle : a ≤ (p.mPopulation.size Role.Worker - p.mWorkersUsed) +
      (p.mPopulation.size Role.Scientist - p.mScientistsUsed - p.mScientistsAsWorkers))
    (hfit : p.workerNoOverflow a) :
    (p.usePopulation32 Role.Worker a).1 = Except.ok true ∧
    (p.usePopulation32 Role.Worker a).2.mWorkersUsed =
      p.mWorkersUsed + (p.mPopulation.size Role.Worker - p.mWorkersUsed) ∧
    (p.usePopulation32 Role.Worker a).2.mScientistsAsWorkers =
      p.mScientistsAsWorkers + (a - (p.mPopulation.size Role.Worker - p.mWorkersUsed)) ∧
    ((p.usePopulation32 Role.Worker a).2.mWorkersUsed - p.mWorkersUsed) +
      ((p.usePopulation32 Role.Worker a).2.mScientistsAsWorkers - p.mScientistsAsWorkers) =
        a := by
  rw [usePopulation32_worker_eq p a hfit]
  exact PopulationPool.usePopulation_worker_shortfall p a hlt hle

/-- Witness of C2 (amended): `samplePool` has 3 idle workers and 2 idle scientists; 4
workers are requested. -/
theorem usePopulation32_worker_shortfall_witness :
    samplePool.workerNoOverflow 4 ∧
    (samplePool.usePopulation32 Role.Worker 4).1 = Except.ok true ∧
    (samplePool.usePopulation32 Role.Worker 4).2.mWorkersUsed =
      samplePool.mWorkersUsed +
        (samplePool.mPopulation.size Role.Worker - samplePool.mWorkersUsed) ∧
    (samplePool.usePopulation32 Role.Worker 4).2.mScientistsAsWorkers =
      samplePool.mScientistsAsWorkers +
        (4 - (samplePool.mPopulation.size Role.Worker - samplePool.mWorkersUsed)) ∧
    ((samplePool.usePopulation32 Role.Worker 4).2.mWorkersUsed - samplePool.mWorkersUsed) +
      ((samplePool.usePopulation32 Role.Worker 4).2.mScientistsAsWorkers -
        samplePool.mScientistsAsWorkers) = 4 :=
  ⟨by decide,
    usePopulation32_worker_shortfall samplePool 4 (by decide) (by decide) (by decide)⟩

/-- C7, counterexample: `hugePool` has 2,000,000,000 idle workers and as many idle
scientists, so the amount 1 is at most `workersAvailable` and `scientistsAvailable >= 0`.
On a 32-bit `int` the sum `workersAvailable + scientistsAvailable` of the guard is
-294,967,296, and `usePopulation(Worker, 1)` returns false with `workersUsed` unchanged. -/
theorem usePopulation_worker_covered_counterexample :
    (1 : Int) ≤ hugePool.mPopulation.size Role.Worker - hugePool.mWorkersUsed ∧
    0 ≤ hugePool.mPopulation.size Role.Scientist - hugePool.mScientistsUsed -
      hugePool.mScientistsAsWorkers ∧
    (hugePool.usePopulation32 Role.Worker 1).1 = Except.ok false ∧
    (hugePool.usePopulation32 Role.Worker 1).2.mWorkersUsed = hugePool.mWorkersUsed ∧
    (hugePool.usePopulation32 Role.Worker 1).2.mWorkersUsed ≠ hugePool.mWorkersUsed + 1 := by
  decide

/-- C7 (amended): for every state and amount `a <= workersAvailable` (with
`scientistsAvailable >= 0`) for which no intermediate result of the call leaves the range
of `int` (in particular `workersAvailable + scientistsAvailable <= INT_MAX`),
`usePopulation(Worker, a)` as compiled for a 32-bit `int` returns true, `workersUsed`
increases by `a`, and `scientistsAsWorkers` is unchanged; and no Worker request, whatever
it returns and whether or not it overflows, changes `scientistsUsed`. -/
theorem usePopulation32_worker_covered (p : PopulationPool) (a : Int) :
    (a ≤ p.mPopulation.size Role.Worker - p.mWorkersUsed →
      0 ≤ p.mPopulation.size Role.Scientist - p.mScientistsUsed - p.mScientistsAsWorkers →
      p.workerNoOverflow a →
      (p.usePopulation32 Role.Worker a).1 = Except.ok true ∧
      (p.usePopulation32 Role.Worker a).2.mWorkersUsed = p.mWorkersUsed + a ∧
      (p.usePopulation32 Role.Worker a).2.mScientistsAsWorkers = p.mScientistsAsWorkers) ∧
    (p.usePopulation32 Role.Worker a).2.mScientistsUsed = p.mScientistsUsed := by
  refine ⟨?_, usePopulation32_worker_scientistsUsed p a⟩
  intro hw hs hfit
  rw [usePopulation32_worker_eq p a hfit]
  exact (PopulationPool.usePopulation_worker_covered p a).1 hw hs

/-- Witness of C7 (amended): 3 workers are requested from `samplePool`, which has 3 idle
workers. -/
theorem usePopulation32_worker_covered_witness :
    samplePool.workerNoOverflow 3 ∧
    (samplePool.usePopulation32 Role.Worker 3).1 = Except.ok true ∧
    (samplePool.usePopulation32 Role.Worker 3).2.mWorkersUsed = samplePool.mWorkersUsed + 3 ∧
    (samplePool.usePopulation32 Role.Worker 3).2.mScientistsAsWorkers =
      samplePool.mScientistsAsWorkers :=
  ⟨by decide,
    (usePopulation32_worker_covered samplePool 3).1 (by decide) (by decide) (by decide)⟩

/-- On a request without overflow the 32-bit `usePopulation` computes, for every role, what
the arithmetic on mathematical integers gives. -/
theorem usePopulation32_eq (p : PopulationPool) (role : Role) (a : Int)
    (h : p.noOverflow role a) :
    p.usePopulation32 role a = p.usePopulation role a := by
  cases role
  · rfl
  · rfl
  · exact usePopulation32_worker_eq p a h
  · exact usePopulation32_scientist_eq p a h
  · rfl

/-- The 32-bit `enoughPopulationAvailable` for the role Worker compares the amount with
`size(Worker) - workersUsed`, reduced to the range of `int`. -/
theorem enoughPopulationAvailable32_worker_eq (p : PopulationPool) (a : Int) :
    p.enoughPopulationAvailable32 Role.Worker a =
      (Except.ok (decide (wrapInt (p.mPopulation.size Role.Worker - p.mWorkersUsed) ≥ a)),
        p) := by
  simp [PopulationPool.enoughPopulationAvailable32, PopulationPool.populationAvailable32,
    PopulationPool.BasicCheck_worker, PopulationPool.workersEmployed]

/-- The 32-bit `enoughPopulationAvailable` for the role Scientist compares the amount with
`size(Scientist) - scientistsUsed`, reduced to the range of `int`. -/
theorem enoughPopulationAvailable32_scientist_eq (p : PopulationPool) (a : Int) :
    p.enoughPopulationAvailable32 Role.Scientist a =
      (Except.ok (decide (wrapInt (p.mPopulation.size Role.Scientist - p.mScientistsUsed) ≥ a)),
        p) := by
  simp [PopulationPool.enoughPopulationAvailable32, PopulationPool.populationAvailable32,
    PopulationPool.BasicCheck_scientist, PopulationPool.scientistsEmployed]

/-- C23 (amended): for every pool state satisfying the pool invariant and every amount for
which no intermediate result of the calls leaves the range of `int`: for the role Worker,
if `enoughPopulationAvailable(Worker, amount)` returns true then `usePopulation(Worker,
amount)` called in that same state returns true; for the role Scientist,
`usePopulation(Scientist, amount)` returns true exactly when `amount +
scientistsAsWorkers <= size(Scientist) - scientistsUsed`, the value
`populationAvailable(Scientist)` returns, so that `enoughPopulationAvailable(Scientist,
amount)` returning true implies `usePopulation(Scientist, amount)` returning true in the
states where no scientist is employed as a worker. -/
theorem enough_implies_use (p : PopulationPool) (a : Int) (hinv : p.Invariant) :
    (p.workerNoOverflow a →
      (p.enoughPopulationAvailable32 Role.Worker a).1 = Except.ok true →
      (p.usePopulation32 Role.Worker a).1 = Except.ok true) ∧
    (p.scientistNoOverflow a →
      fitsInt (p.mPopulation.size Role.Scientist - p.mScientistsUsed) →
      (p.populationAvailable32 Role.Scientist).1 =
        Except.ok (p.mPopulation.size Role.Scientist - p.mScientistsUsed) ∧
      ((p.usePopulation32 Role.Scientist a).1 = Except.ok true ↔
        a + p.mScientistsAsWorkers ≤ p.mPopulation.size Role.Scientist - p.mScientistsUsed) ∧
      (p.mScientistsAsWorkers = 0 →
        (p.enoughPopulationAvailable32 Role.Scientist a).1 = Except.ok true →
        (p.usePopulation32 Role.Scientist a).1 = Except.ok true)) := by
  obtain ⟨hs, hw⟩ := hinv
  constructor
  · intro hfit henough
    rw [enoughPopulationAvailable32_worker_eq, wrapInt_of_fits _ hfit.2.2.1] at henough
    have ha : a ≤ p.mPopulation.size Role.Worker - p.mWorkersUsed := by
      simpa using henough
    rw [usePopulation32_worker_eq p a hfit, PopulationPool.usePopulation_worker_eq,
      if_pos (by omega), if_pos ha]
  · intro hfit havail
    have huse : (p.usePopulation32 Role.Scientist a).1 = Except.ok true ↔
        a + p.mScientistsAsWorkers ≤ p.mPopulation.size Role.Scientist - p.mScientistsUsed := by
      rw [usePopulation32_scientist_eq p a hfit, PopulationPool.usePopulation_scientist_eq]
      split_ifs with h
      · exact ⟨fun _ => by omega, fun _ => rfl⟩
      · exact ⟨fun hc => by simp at hc, fun hc => absurd (by omega) h⟩
    refine ⟨?_, huse, ?_⟩
    · simp [PopulationPool.populationAvailable32, PopulationPool.BasicCheck_scientist,
        PopulationPool.scientistsEmployed, wrapInt_of_fits _ havail]
    · intro hzero henough
      rw [enoughPopulationAvailable32_scientist_eq, wrapInt_of_fits _ havail] at henough
      have ha : a ≤ p.mPopulation.size Role.Scientist - p.mScientistsUsed := by
        simpa using henough
      exact huse.2 (by omega)

/-- Witness of C23 (amended): on `samplePool` the check and the allocation of 3 workers
both answer true, and the allocation of 2 scientists succeeds because 2 plus the one
scientist employed as a worker is at most the 3 that `populationAvailable(Scientist)`
returns. -/
theorem enough_implies_use_witness :
    samplePool.Invariant ∧ samplePool.workerNoOverflow 3 ∧
    (samplePool.enoughPopulationAvailable32 Role.Worker 3).1 = Except.ok true ∧
    (samplePool.usePopulation32 Role.Worker 3).1 = Except.ok true ∧
    samplePool.scientistNoOverflow 2 ∧
    (samplePool.usePopulation32 Role.Scientist 2).1 = Except.ok true :=
  ⟨by decide, by decide, by decide,
    (enough_implies_use samplePool 3 (by decide)).1 (by decide) (by decide),
    by decide,
    ((enough_implies_use samplePool 2 (by decide)).2 (by decide) (by decide)).2.1.2
      (by decide)⟩

/-! ## Theorems: the minimum batch of ore refining -/

end OPHD
